import Mathlib

/-!
Verification of the repotrackr extraction/classification core against its
design specification.

The Python sources under `backend/app/services/` are shallowly embedded:
 - Python `str` is modelled as Lean `String` (operations are defined on the
   underlying `List Char`); `str.lower()` is modelled on ASCII letters, which
   covers every string the embedded tables and claims use.
 - Python `float` together with `decimal.Decimal` quantities (confidence
   scores, completion percentages) are modelled as exact rationals `ℚ`.
   The source computes `(completed / total) * 100` in IEEE double precision
   before quantizing; all inputs appearing in theorems and witnesses below
   are binary-exact, where double arithmetic and exact rational arithmetic
   coincide.
 - fallible code (`json.loads`, dictionary/attribute errors) is modelled
   with `Option`/`Except`; a Python `try/except` materialises as a `match`
   on the `Except` value.
-/

namespace Repotrackr

/-! ### Character and string helpers (models of Python `str` methods) -/

/-- ASCII model of Python `str.lower` on a single character (the core
`Char.toLower`, which maps exactly the basic latin letters `A`–`Z`). -/
def pyLowerChar (c : Char) : Char := c.toLower

/-- ASCII model of Python `str.upper` on a single character. -/
def pyUpperChar (c : Char) : Char := c.toUpper

/-- Python `str.lower`. -/
def pyLower (s : String) : String := ⟨s.data.map pyLowerChar⟩

/-- Python `str.upper`. -/
def pyUpper (s : String) : String := ⟨s.data.map pyUpperChar⟩

/-- Python `str.strip` (leading run of whitespace removed), on char lists. -/
def lstripList (l : List Char) : List Char := l.dropWhile Char.isWhitespace

/-- Python `str.strip` (trailing run of whitespace removed), on char lists. -/
def rstripList (l : List Char) : List Char :=
  ((l.reverse.dropWhile Char.isWhitespace)).reverse

/-- Python `str.strip` on char lists. -/
def trimList (l : List Char) : List Char := lstripList (rstripList l)

/-- Python `str.strip`. -/
def pyStrip (s : String) : String := ⟨trimList s.data⟩

/-- Python `content.split(sep)` for a single-character separator. -/
def splitOnChar (sep : Char) : List Char → List (List Char)
  | [] => [[]]
  | c :: cs =>
    let r := splitOnChar sep cs
    if c = sep then [] :: r
    else
      match r with
      | h :: t => (c :: h) :: t
      | [] => [[c]]

/-- Python `needle in hay` for strings (substring containment). -/
def listContains (hay needle : List Char) : Bool :=
  match hay with
  | [] => needle.isEmpty
  | _ :: t => needle.isPrefixOf hay || listContains t needle

/-- Python `str.split()` with no argument: split on whitespace runs,
discarding empty pieces. -/
def pySplitWs : List Char → List (List Char)
  | [] => []
  | c :: cs =>
    if c.isWhitespace then pySplitWs cs
    else
      let word := cs.takeWhile (fun d => !d.isWhitespace)
      (c :: word) :: pySplitWs (cs.drop word.length)
termination_by l => l.length
decreasing_by
  · simp only [List.length_cons]; omega
  · simp only [List.length_cons, List.length_drop]; omega

/-! ### Data model (`task_extractor.py`, `progress_calculator.py`,
`manifest_parser.py`, `skill_mapper.py`) -/

/-- `Task` dataclass from `task_extractor.py`. -/
structure Task where
  title : String
  status : String
  file_path : Option String := none
  line_number : Option Nat := none
  priority : Option String := none
  description : Option String := none
deriving DecidableEq, Repr, Inhabited

/-- `ProgressSnapshot` dataclass from `progress_calculator.py`.
The `created_at : datetime` field (a wall-clock timestamp) is omitted from
the embedding; no claim concerns it. -/
structure ProgressSnapshot where
  percentage_complete : ℚ
  tasks_total : Nat
  tasks_done : Nat
  tasks_doing : Nat
  tasks_todo : Nat
  tasks_blocked : Nat
  project_status : String
deriving DecidableEq, Repr

/-- `Package` dataclass from `manifest_parser.py`; `confidence : float`
is modelled as an exact rational. -/
structure Package where
  name : String
  version : Option String := none
  source : String := ""
  category : Option String := none
  confidence : ℚ := 1/2
deriving DecidableEq, Repr, Inhabited

/-- `Skill` dataclass from `skill_mapper.py`. -/
structure Skill where
  name : String
  category : String
  confidence : ℚ
  source : String
  aliases : List String := []
deriving DecidableEq, Repr, Inhabited

/-! ### Progress calculator (`progress_calculator.py`) -/

/-- Rounding a rational to the nearest integer with ties to even: the
rounding performed by `Decimal.quantize` under Python's default decimal
context (`ROUND_HALF_EVEN`). -/
def roundHalfEvenInt (q : ℚ) : ℤ :=
  if q - q.floor < 1/2 then q.floor
  else if q - q.floor > 1/2 then q.floor + 1
  else if q.floor % 2 = 0 then q.floor else q.floor + 1

/-- `Decimal(str(x)).quantize(Decimal('0.01'))`: quantize to two decimal
places with the default `ROUND_HALF_EVEN` rounding. -/
def quantize2 (q : ℚ) : ℚ := (roundHalfEvenInt (q * 100) : ℚ) / 100

/-- `sum(1 for task in tasks if task.status == st)`. -/
def countStatus (tasks : List Task) (st : String) : Nat :=
  (tasks.filter (fun t => t.status == st)).length

/-- `ProgressCalculator._determine_status`.  The `green_threshold` and
`yellow_threshold` constructor parameters (defaults `70.0` and `30.0`) are
explicit arguments; the `float(percentage)` conversion of the two-decimal
value is modelled as the identity on `ℚ` (exact for every comparison against
the integer thresholds, since two-decimal values are never within a double
rounding error of them). -/
def determine_status (green_threshold yellow_threshold : ℚ)
    (percentage : ℚ) (blocked_count : Nat) : String :=
  if percentage ≥ green_threshold ∧ blocked_count = 0 then "green"
  else if percentage ≥ yellow_threshold ∧ blocked_count ≤ 1 then "yellow"
  else "red"

/-- `ProgressCalculator.calculate_progress`. -/
def calculate_progress (green_threshold yellow_threshold : ℚ)
    (tasks : List Task) : ProgressSnapshot :=
  if tasks = [] then
    { percentage_complete := 0, tasks_total := 0, tasks_done := 0,
      tasks_doing := 0, tasks_todo := 0, tasks_blocked := 0,
      project_status := "red" }
  else
    let tasks_done := countStatus tasks "done"
    let tasks_doing := countStatus tasks "doing"
    let tasks_todo := countStatus tasks "todo"
    let tasks_blocked := countStatus tasks "blocked"
    let tasks_total := tasks.length
    let completed_tasks := tasks_done + tasks_doing
    let percentage_complete :=
      quantize2 (((completed_tasks : ℚ) / (tasks_total : ℚ)) * 100)
    { percentage_complete := percentage_complete,
      tasks_total := tasks_total, tasks_done := tasks_done,
      tasks_doing := tasks_doing, tasks_todo := tasks_todo,
      tasks_blocked := tasks_blocked,
      project_status :=
        determine_status green_threshold yellow_threshold
          percentage_complete tasks_blocked }

/-- Rounding to two decimal places with ties *away from zero* for positive
values: the rounding rule that claim C5 asserts (`half-up`).  Written from
the claim's words, for comparison with `quantize2` above. -/
def quantize2HalfUpSpec (q : ℚ) : ℚ := ((⌊q * 100 + 1/2⌋ : ℤ) : ℚ) / 100

/-! ### Python dictionaries

Python `dict` is modelled as an association list in insertion order:
assigning to an existing key replaces the value in place (the key keeps its
original position), assigning to a fresh key appends.  A `dict` literal with
a duplicated key therefore keeps the first position and the last value. -/

/-- `m[k] = v` on a Python dict. -/
def pyDictUpdate {α : Type} (m : List (String × α)) (k : String) (v : α) :
    List (String × α) :=
  if m.any (fun p => p.1 == k) then
    m.map (fun p => if p.1 == k then (p.1, v) else p)
  else m ++ [(k, v)]

/-- The Python dict built by assigning the pairs of `l` in order. -/
def pyDict {α : Type} (l : List (String × α)) : List (String × α) :=
  l.foldl (fun m p => pyDictUpdate m p.1 p.2) []

/-! ### Manifest parser (`manifest_parser.py`) -/

/-- `ManifestParser.popular_packages` (a Python `set`; only membership is
ever used, so the literal's order is irrelevant). -/
def popular_packages : List String :=
  ["django", "flask", "fastapi", "requests", "pandas", "numpy", "pytest",
   "sqlalchemy", "alembic", "psycopg2", "redis", "celery", "uvicorn",
   "react", "vue", "angular", "express", "next", "typescript", "jest",
   "tailwindcss", "axios", "lodash", "moment", "webpack", "vite",
   "tokio", "serde", "actix-web", "sqlx", "clap", "reqwest",
   "gin", "echo", "gorilla", "gorm", "testify",
   "docker", "git", "npm", "pip", "cargo", "go"]

/-- `ManifestParser.reliable_sources`. -/
def reliable_sources : List String :=
  ["requirements.txt", "package.json", "pyproject.toml", "Cargo.toml",
   "go.mod", "Dockerfile", "docker-compose.yml"]

/-- `ManifestParser._calculate_confidence`. -/
def calculate_confidence (package_name : String) (source : String) : ℚ :=
  let base := 1/2
  let base := if popular_packages.contains package_name then base + 3/10 else base
  let base := if reliable_sources.contains source then base + 1/10 else base
  min base 1

/-- The character class `[a-zA-Z0-9_-]` of the requirements-line regex. -/
def reqNameChar (c : Char) : Bool :=
  c.isAlpha || c.isDigit || c = '_' || c = '-'

/-- The character class `[=<>~!]` of the version-specifier regex. -/
def verSpecChar (c : Char) : Bool :=
  c = '=' || c = '<' || c = '>' || c = '~' || c = '!'

/-- `re.match(r'^[=<>~!]+(.+)$', version_spec)`, returning group 1.  The
greedy `[=<>~!]+` backtracks one character when nothing would remain for
`(.+)`. -/
def matchVersionTail (vs : List Char) : Option (List Char) :=
  let run := vs.takeWhile verSpecChar
  let rest := vs.drop run.length
  if run.isEmpty then none
  else if rest.isEmpty then
    if run.length ≥ 2 then some (run.drop (run.length - 1)) else none
  else some rest

/-- One iteration of the `ManifestParser.parse_requirements_txt` line loop:
`none` when the line is skipped (blank, comment, or no regex match). -/
def parseReqLine (line0 : List Char) : Option Package :=
  let line := trimList line0
  if line.isEmpty then none
  else if line.head? = some '#' then none
  else
    let nameRun := line.takeWhile reqNameChar
    if nameRun.isEmpty then none
    else
      let version_spec := trimList (line.drop nameRun.length)
      let version :=
        if version_spec.isEmpty then none
        else (matchVersionTail version_spec).map (fun v => (⟨v⟩ : String))
      let name := pyLower ⟨nameRun⟩
      some { name := name, version := version, source := "requirements.txt",
             confidence := calculate_confidence name "requirements.txt" }

/-- `ManifestParser.parse_requirements_txt`. -/
def parse_requirements_txt (content : String) : List Package :=
  (splitOnChar '\n' content.data).filterMap parseReqLine

/-! #### A model of `json.loads`

Python values produced by `json.loads` (`None`, `bool`, numbers, `str`,
`list`, `dict`). -/

inductive PyVal where
  | null : PyVal
  | bool : Bool → PyVal
  | num : ℚ → PyVal
  | str : String → PyVal
  | arr : List PyVal → PyVal
  | obj : List (String × PyVal) → PyVal

/-- JSON insignificant whitespace. -/
def jsonWs (l : List Char) : List Char :=
  l.dropWhile (fun c => c = ' ' || c = '\t' || c = '\n' || c = '\r')

/-- Body of a JSON string after the opening quote; escape sequences are
decoded by taking the escaped character literally (exact for the inputs
used below, none of which contain escapes). -/
def jsonStringChars : List Char → Option (List Char × List Char)
  | [] => none
  | '"' :: r => some ([], r)
  | '\\' :: c :: r => (jsonStringChars r).map (fun p => (c :: p.1, p.2))
  | c :: r => (jsonStringChars r).map (fun p => (c :: p.1, p.2))

/-- Digit run to a natural number. -/
def digitsToNat (ds : List Char) : Nat :=
  ds.foldl (fun n c => 10 * n + (c.toNat - 48)) 0

/-- A JSON number: optional sign, digits, optional fractional part
(exponents are not modelled; no input below uses them). -/
def jsonNum (l : List Char) : Option (PyVal × List Char) :=
  let p := match l with | '-' :: r => (true, r) | _ => (false, l)
  let ds := p.2.takeWhile Char.isDigit
  if ds.isEmpty then none
  else
    let rest := p.2.drop ds.length
    let intPart : ℚ := (digitsToNat ds : ℚ)
    match rest with
    | '.' :: r2 =>
      let fs := r2.takeWhile Char.isDigit
      if fs.isEmpty then none
      else
        let q := intPart + (digitsToNat fs : ℚ) / ((10 : ℚ) ^ fs.length)
        some (.num (if p.1 then -q else q), r2.drop fs.length)
    | _ => some (.num (if p.1 then -intPart else intPart), rest)

mutual

/-- Recursive-descent JSON value parser (fuel-indexed; `jsonLoads` supplies
enough fuel for any input). -/
def jsonVal : Nat → List Char → Option (PyVal × List Char)
  | 0, _ => none
  | Nat.succ fuel, l =>
    match jsonWs l with
    | 'n' :: 'u' :: 'l' :: 'l' :: r => some (.null, r)
    | 't' :: 'r' :: 'u' :: 'e' :: r => some (.bool true, r)
    | 'f' :: 'a' :: 'l' :: 's' :: 'e' :: r => some (.bool false, r)
    | '"' :: r => (jsonStringChars r).map (fun p => (.str ⟨p.1⟩, p.2))
    | '\x7b' :: r =>
      (match jsonWs r with
       | '\x7d' :: r2 => some (.obj [], r2)
       | _ => jsonMembers fuel r [])
    | '[' :: r =>
      (match jsonWs r with
       | ']' :: r2 => some (.arr [], r2)
       | _ => jsonElems fuel r [])
    | l2 => jsonNum l2

/-- `key : value` members of a JSON object (duplicate keys collapse with
Python dict semantics when the closing brace is reached). -/
def jsonMembers : Nat → List Char → List (String × PyVal) →
    Option (PyVal × List Char)
  | 0, _, _ => none
  | Nat.succ fuel, l, acc =>
    match jsonWs l with
    | '"' :: r =>
      (match jsonStringChars r with
       | none => none
       | some (k, r2) =>
         match jsonWs r2 with
         | ':' :: r3 =>
           (match jsonVal fuel r3 with
            | none => none
            | some (v, r4) =>
              match jsonWs r4 with
              | ',' :: r5 => jsonMembers fuel r5 (acc ++ [(⟨k⟩, v)])
              | '\x7d' :: r5 => some (.obj (pyDict (acc ++ [(⟨k⟩, v)])), r5)
              | _ => none)
         | _ => none)
    | _ => none

/-- Elements of a JSON array. -/
def jsonElems : Nat → List Char → List PyVal → Option (PyVal × List Char)
  | 0, _, _ => none
  | Nat.succ fuel, l, acc =>
    match jsonVal fuel l with
    | none => none
    | some (v, r) =>
      match jsonWs r with
      | ',' :: r2 => jsonElems fuel r2 (acc ++ [v])
      | ']' :: r2 => some (.arr (acc ++ [v]), r2)
      | _ => none

end

/-- `json.loads`: `none` models `json.JSONDecodeError`. -/
def jsonLoads (content : String) : Option PyVal :=
  match jsonVal (content.length + 1) content.data with
  | some (v, rest) => if (jsonWs rest).isEmpty then some v else none
  | none => none

/-- Exceptions that can escape the embedded fragments. -/
inductive PyExc where
  | typeError : PyExc
  | attributeError : PyExc
  | keyError : PyExc
deriving DecidableEq, Repr

/-- Python truthiness. -/
def pyTruthy : PyVal → Bool
  | .null => false
  | .bool b => b
  | .num q => decide (q ≠ 0)
  | .str s => !s.isEmpty
  | .arr xs => !xs.isEmpty
  | .obj kvs => !kvs.isEmpty

/-- Python `key in v` for a string key: containment for `dict`, `list` and
`str`; `TypeError` for the non-container values. -/
def pyIn (key : String) : PyVal → Except PyExc Bool
  | .obj kvs => .ok (kvs.any (fun p => p.1 == key))
  | .arr xs => .ok (xs.any (fun x => match x with | .str s => s == key | _ => false))
  | .str s => .ok (listContains s.data key.data)
  | _ => .error .typeError

/-- Python `v[key]` for a string key. -/
def pySubscript (v : PyVal) (key : String) : Except PyExc PyVal :=
  match v with
  | .obj kvs => match kvs.lookup key with
    | some x => .ok x
    | none => .error .keyError
  | _ => .error .typeError

/-- Python `v.items()` (raises `AttributeError` unless `v` is a dict). -/
def pyItems (v : PyVal) : Except PyExc (List (String × PyVal)) :=
  match v with
  | .obj kvs => .ok kvs
  | _ => .error .attributeError

/-- Python `v.values()` (raises `AttributeError` unless `v` is a dict). -/
def pyValues (v : PyVal) : Except PyExc (List PyVal) :=
  match v with
  | .obj kvs => .ok (kvs.map (fun p => p.2))
  | _ => .error .attributeError

/-- `re.match(r'^[^0-9]*([0-9].*)$', version_spec)`, returning group 1:
the suffix starting at the first digit, if any. -/
def extractJsVersion (spec : String) : Option String :=
  let l := spec.data
  let rest := l.drop (l.takeWhile (fun c => !c.isDigit)).length
  if rest.isEmpty then none else some ⟨rest⟩

/-- `str.join` with a separator. -/
def joinSep (sep : String) : List String → String
  | [] => ""
  | h :: t => t.foldl (fun acc s => acc ++ sep ++ s) h

/-- `ManifestParser._detect_tools_from_scripts`'s tool vocabulary.  The
source iterates a Python `set` whose order is implementation-defined; the
model fixes the literal's order (no claim depends on the order). -/
def script_tools : List String :=
  ["webpack", "vite", "rollup", "jest", "mocha", "cypress", "eslint",
   "prettier", "typescript", "babel", "postcss", "tailwindcss"]

/-- `ManifestParser._detect_tools_from_scripts`. -/
def detect_tools_from_scripts (script_content : String) : List String :=
  script_tools.filter (fun tool => listContains script_content.data tool.data)

/-- `ManifestParser._detect_tools_from_command`'s tool vocabulary (also a
Python `set`; see `script_tools`). -/
def command_tools : List String :=
  ["apt-get", "yum", "dnf", "pip", "npm", "yarn", "cargo", "go",
   "git", "curl", "wget", "tar", "unzip", "make", "cmake"]

/-- `ManifestParser._detect_tools_from_command`. -/
def detect_tools_from_command (command : String) : List String :=
  command_tools.filter (fun tool => listContains (pyLower command).data tool.data)

/-- The version-extraction step of the `package.json` dependency loop:
`version_spec` is an arbitrary JSON value; a truthy non-`"*"` value is fed
to `re.match`, which raises `TypeError` unless it is a string. -/
def packageJsonVersion (version_spec : PyVal) : Except PyExc (Option String) :=
  if pyTruthy version_spec &&
      !(match version_spec with | .str s => s == "*" | _ => false) then
    match version_spec with
    | .str s => .ok (extractJsVersion s)
    | _ => .error .typeError
  else .ok none

/-- `ManifestParser.parse_package_json`.  Only `json.JSONDecodeError` is
caught (yielding the packages salvaged so far, i.e. `[]`); any other
exception escapes as `.error`. -/
def parse_package_json (content : String) : Except PyExc (List Package) :=
  match jsonLoads content with
  | none => .ok []
  | some data => do
    let packages ← ["dependencies", "devDependencies", "peerDependencies"].foldlM
      (fun (packages : List Package) dep_type => do
        let present ← pyIn dep_type data
        if present then
          let deps ← pySubscript data dep_type
          let items ← pyItems deps
          items.foldlM (fun (packages : List Package) item => do
            let name := pyLower item.1
            let version ← packageJsonVersion item.2
            pure (packages ++
              [{ name := name, version := version, source := "package.json",
                 confidence := calculate_confidence name "package.json" }]))
            packages
        else pure packages) []
    let present ← pyIn "scripts" data
    if present then
      let scripts ← pySubscript data "scripts"
      let vals ← pyValues scripts
      let strs ← vals.mapM (fun v =>
        match v with
        | .str s => Except.ok s
        | _ => Except.error PyExc.typeError)
      let script_content := pyLower (joinSep " " strs)
      let tools := detect_tools_from_scripts script_content
      pure (packages ++ tools.map (fun tool =>
        { name := tool, source := "package.json",
          confidence := calculate_confidence tool "package.json" }))
    else pure packages

/-- `ManifestParser.parse_go_mod`. -/
def parse_go_mod (content : String) : List Package :=
  (splitOnChar '\n' content.data).foldl (fun packages line0 =>
    let line := trimList line0
    if line.isEmpty then packages
    else if "//".data.isPrefixOf line then packages
    else if "require ".data.isPrefixOf line then
      let parts := pySplitWs line
      if parts.length ≥ 3 then
        let module_path := parts.getD 1 []
        let module_name := pyLower ⟨(splitOnChar '/' module_path).getLastD []⟩
        packages ++ [{ name := module_name, source := "go.mod",
                       confidence := calculate_confidence module_name "go.mod" }]
      else packages
    else packages) []

/-- `ManifestParser.parse_dockerfile`. -/
def parse_dockerfile (content : String) : List Package :=
  (splitOnChar '\n' content.data).foldl (fun packages line0 =>
    let line := trimList line0
    if line.isEmpty then packages
    else if line.head? = some '#' then packages
    else if "FROM ".data.isPrefixOf (line.map pyUpperChar) then
      let image_spec := trimList (line.drop 5)
      let image_name :=
        pyLower ⟨(splitOnChar '/' ((splitOnChar ':' image_spec).headD [])).getLastD []⟩
      packages ++ [{ name := image_name, source := "Dockerfile",
                     confidence := calculate_confidence image_name "Dockerfile" }]
    else if "RUN ".data.isPrefixOf (line.map pyUpperChar) then
      let run_command := trimList (line.drop 4)
      let tools := detect_tools_from_command ⟨run_command⟩
      packages ++ tools.map (fun tool =>
        { name := tool, source := "Dockerfile",
          confidence := calculate_confidence tool "Dockerfile" })
    else packages) []

/-! ### Pipeline manifest processing
(`skills_extraction_pipeline.py`, `process_manifest_files`)

The filesystem walk is external; the embedding receives the discovered
`(filename, content)` pairs.  For each pattern of the `manifest_patterns`
dict, in order, every matching file is parsed inside a per-file
`try/except`, so a file whose parse raises contributes no packages while
the other files still do.  The `pyproject.toml` and `Cargo.toml` parsers
(TOML-based, and wrapped in a broad `except` so they never raise) are not
embedded; no claim depends on their output. -/

def manifest_patterns : List (String × (String → Except PyExc (List Package))) :=
  [("requirements.txt", fun c => .ok (parse_requirements_txt c)),
   ("package.json", parse_package_json),
   ("go.mod", fun c => .ok (parse_go_mod c))]

/-- `SkillsExtractionPipeline.process_manifest_files`. -/
def process_manifest_files (files : List (String × String)) : List Package :=
  let fromPatterns :=
    manifest_patterns.foldl (fun packages pat =>
      (files.filter (fun f => f.1 == pat.1)).foldl (fun packages f =>
        match pat.2 f.2 with
        | .ok file_packages => packages ++ file_packages
        | .error _ => packages) packages) []
  (files.filter (fun f => f.1 == "Dockerfile")).foldl (fun packages f =>
    packages ++ parse_dockerfile f.2) fromPatterns

/-! ### Skill mapper (`skill_mapper.py`) -/

/-- The value type of the `skill_mappings` dict. -/
structure SkillInfo where
  category : String
  aliases : List String
deriving DecidableEq, Repr

/-- Rows 1 to 30 of the `skill_mappings` dict literal (the
literal is split into chunks to keep elaboration fast; `raw_skill_mappings`
below concatenates them in source order). -/
def raw_skill_chunk_0 : List (String × SkillInfo) :=
  [("python", ⟨"language", ["py", "python3"]⟩),
   ("javascript", ⟨"language", ["js", "node"]⟩),
   ("typescript", ⟨"language", ["ts"]⟩),
   ("rust", ⟨"language", ["rs"]⟩),
   ("go", ⟨"language", ["golang"]⟩),
   ("java", ⟨"language", []⟩),
   ("c#", ⟨"language", ["csharp", "dotnet"]⟩),
   ("php", ⟨"language", []⟩),
   ("ruby", ⟨"language", ["rb"]⟩),
   ("swift", ⟨"language", []⟩),
   ("kotlin", ⟨"language", ["kt"]⟩),
   ("scala", ⟨"language", []⟩),
   ("django", ⟨"framework", ["djangoproject"]⟩),
   ("flask", ⟨"framework", ["flask-app"]⟩),
   ("fastapi", ⟨"framework", ["fast-api"]⟩),
   ("uvicorn", ⟨"framework", ["asgi"]⟩),
   ("gunicorn", ⟨"framework", ["wsgi"]⟩),
   ("tornado", ⟨"framework", []⟩),
   ("aiohttp", ⟨"framework", ["async-http"]⟩),
   ("starlette", ⟨"framework", []⟩),
   ("bottle", ⟨"framework", []⟩),
   ("pyramid", ⟨"framework", []⟩),
   ("react", ⟨"framework", ["reactjs", "react.js"]⟩),
   ("vue", ⟨"framework", ["vuejs", "vue.js"]⟩),
   ("angular", ⟨"framework", ["angularjs"]⟩),
   ("next", ⟨"framework", ["nextjs", "next.js"]⟩),
   ("nuxt", ⟨"framework", ["nuxtjs", "nuxt.js"]⟩),
   ("express", ⟨"framework", ["expressjs", "express.js"]⟩),
   ("koa", ⟨"framework", ["koajs"]⟩),
   ("nest", ⟨"framework", ["nestjs"]⟩)]

/-- Rows 31 to 60 of the `skill_mappings` dict literal (the
literal is split into chunks to keep elaboration fast; `raw_skill_mappings`
below concatenates them in source order). -/
def raw_skill_chunk_1 : List (String × SkillInfo) :=
  [("svelte", ⟨"framework", ["sveltejs"]⟩),
   ("ember", ⟨"framework", ["emberjs"]⟩),
   ("backbone", ⟨"framework", ["backbonejs"]⟩),
   ("actix-web", ⟨"framework", ["actix"]⟩),
   ("rocket", ⟨"framework", ["rocket-rs"]⟩),
   ("warp", ⟨"framework", ["warp-rs"]⟩),
   ("axum", ⟨"framework", ["axum-rs"]⟩),
   ("tonic", ⟨"framework", ["grpc-rs"]⟩),
   ("gin", ⟨"framework", ["gin-gonic"]⟩),
   ("echo", ⟨"framework", ["echo-framework"]⟩),
   ("gorilla", ⟨"framework", ["gorilla-mux"]⟩),
   ("fiber", ⟨"framework", ["fiber-go"]⟩),
   ("chi", ⟨"framework", ["chi-router"]⟩),
   ("postgresql", ⟨"database", ["postgres", "psql"]⟩),
   ("mysql", ⟨"database", ["mariadb"]⟩),
   ("sqlite", ⟨"database", ["sqlite3"]⟩),
   ("mongodb", ⟨"database", ["mongo"]⟩),
   ("redis", ⟨"database", ["redis-py"]⟩),
   ("cassandra", ⟨"database", ["cassandra-db"]⟩),
   ("elasticsearch", ⟨"database", ["elastic", "es"]⟩),
   ("influxdb", ⟨"database", ["influx"]⟩),
   ("neo4j", ⟨"database", ["neo4j-db"]⟩),
   ("dynamodb", ⟨"database", ["aws-dynamodb"]⟩),
   ("sqlalchemy", ⟨"orm", ["sql-alchemy"]⟩),
   ("alembic", ⟨"orm", ["db-migration"]⟩),
   ("prisma", ⟨"orm", ["prisma-client"]⟩),
   ("sequelize", ⟨"orm", ["sequelize-orm"]⟩),
   ("typeorm", ⟨"orm", ["type-orm"]⟩),
   ("gorm", ⟨"orm", ["gorm-go"]⟩),
   ("sqlx", ⟨"orm", ["sqlx-rs"]⟩)]

/-- Rows 61 to 90 of the `skill_mappings` dict literal (the
literal is split into chunks to keep elaboration fast; `raw_skill_mappings`
below concatenates them in source order). -/
def raw_skill_chunk_2 : List (String × SkillInfo) :=
  [("diesel", ⟨"orm", ["diesel-rs"]⟩),
   ("pytest", ⟨"testing", ["py-test"]⟩),
   ("unittest", ⟨"testing", ["python-testing"]⟩),
   ("jest", ⟨"testing", ["jest-testing"]⟩),
   ("mocha", ⟨"testing", ["mocha-testing"]⟩),
   ("cypress", ⟨"testing", ["cypress-testing"]⟩),
   ("playwright", ⟨"testing", ["playwright-testing"]⟩),
   ("selenium", ⟨"testing", ["selenium-testing"]⟩),
   ("testify", ⟨"testing", ["testify-go"]⟩),
   ("criterion", ⟨"testing", ["criterion-rs"]⟩),
   ("webpack", ⟨"build", ["webpack-bundler"]⟩),
   ("vite", ⟨"build", ["vite-bundler"]⟩),
   ("rollup", ⟨"build", ["rollup-bundler"]⟩),
   ("parcel", ⟨"build", ["parcel-bundler"]⟩),
   ("esbuild", ⟨"build", ["es-build"]⟩),
   ("babel", ⟨"build", ["babel-transpiler"]⟩),
   ("typescript", ⟨"build", ["ts-compiler"]⟩),
   ("swc", ⟨"build", ["swc-compiler"]⟩),
   ("npm", ⟨"package_manager", ["node-package-manager"]⟩),
   ("yarn", ⟨"package_manager", ["yarn-pkg"]⟩),
   ("pnpm", ⟨"package_manager", ["pnpm-pkg"]⟩),
   ("pip", ⟨"package_manager", ["python-pip"]⟩),
   ("poetry", ⟨"package_manager", ["poetry-python"]⟩),
   ("cargo", ⟨"package_manager", ["rust-cargo"]⟩),
   ("go", ⟨"package_manager", ["golang-mod"]⟩),
   ("aws", ⟨"cloud", ["amazon-web-services"]⟩),
   ("azure", ⟨"cloud", ["microsoft-azure"]⟩),
   ("gcp", ⟨"cloud", ["google-cloud", "google-cloud-platform"]⟩),
   ("heroku", ⟨"cloud", ["heroku-platform"]⟩),
   ("vercel", ⟨"cloud", ["vercel-platform"]⟩)]

/-- Rows 91 to 119 of the `skill_mappings` dict literal (the
literal is split into chunks to keep elaboration fast; `raw_skill_mappings`
below concatenates them in source order). -/
def raw_skill_chunk_3 : List (String × SkillInfo) :=
  [("netlify", ⟨"cloud", ["netlify-platform"]⟩),
   ("digitalocean", ⟨"cloud", ["do", "digital-ocean"]⟩),
   ("docker", ⟨"devops", ["docker-container"]⟩),
   ("kubernetes", ⟨"devops", ["k8s", "kube"]⟩),
   ("terraform", ⟨"devops", ["terraform-iac"]⟩),
   ("ansible", ⟨"devops", ["ansible-automation"]⟩),
   ("jenkins", ⟨"devops", ["jenkins-ci"]⟩),
   ("github-actions", ⟨"devops", ["github-ci"]⟩),
   ("gitlab-ci", ⟨"devops", ["gitlab-pipeline"]⟩),
   ("circleci", ⟨"devops", ["circle-ci"]⟩),
   ("travis", ⟨"devops", ["travis-ci"]⟩),
   ("prometheus", ⟨"monitoring", ["prometheus-metrics"]⟩),
   ("grafana", ⟨"monitoring", ["grafana-dashboard"]⟩),
   ("datadog", ⟨"monitoring", ["datadog-apm"]⟩),
   ("newrelic", ⟨"monitoring", ["new-relic"]⟩),
   ("sentry", ⟨"monitoring", ["sentry-error-tracking"]⟩),
   ("logstash", ⟨"monitoring", ["elastic-logstash"]⟩),
   ("fluentd", ⟨"monitoring", ["fluent-d"]⟩),
   ("requests", ⟨"utility", ["python-requests"]⟩),
   ("axios", ⟨"utility", ["axios-http"]⟩),
   ("lodash", ⟨"utility", ["lodash-js"]⟩),
   ("moment", ⟨"utility", ["moment-js"]⟩),
   ("pandas", ⟨"utility", ["pandas-data"]⟩),
   ("numpy", ⟨"utility", ["numpy-array"]⟩),
   ("matplotlib", ⟨"utility", ["matplotlib-plot"]⟩),
   ("seaborn", ⟨"utility", ["seaborn-viz"]⟩),
   ("scikit-learn", ⟨"utility", ["sklearn", "scikit"]⟩),
   ("tensorflow", ⟨"utility", ["tf", "tensor-flow"]⟩),
   ("pytorch", ⟨"utility", ["torch", "py-torch"]⟩)]

/-- The `skill_mappings` dict literal of `SkillMapper.__init__`, as written
in the source (including its two duplicated keys, `typescript` and `go`,
which Python dict-literal semantics collapses to first position and last
value). -/
def raw_skill_mappings : List (String × SkillInfo) :=
  raw_skill_chunk_0 ++ raw_skill_chunk_1 ++ raw_skill_chunk_2 ++ raw_skill_chunk_3

/-- `SkillMapper.skill_mappings`: the dict the literal denotes. -/
def skill_mappings : List (String × SkillInfo) := pyDict raw_skill_mappings

/-- Rows 1 to 30 of the collapsed `skill_mappings` dict (see
`skill_mappings_final`). -/
def final_skill_chunk_0 : List (String × SkillInfo) :=
  [("python", ⟨"language", ["py", "python3"]⟩),
   ("javascript", ⟨"language", ["js", "node"]⟩),
   ("typescript", ⟨"build", ["ts-compiler"]⟩),
   ("rust", ⟨"language", ["rs"]⟩),
   ("go", ⟨"package_manager", ["golang-mod"]⟩),
   ("java", ⟨"language", []⟩),
   ("c#", ⟨"language", ["csharp", "dotnet"]⟩),
   ("php", ⟨"language", []⟩),
   ("ruby", ⟨"language", ["rb"]⟩),
   ("swift", ⟨"language", []⟩),
   ("kotlin", ⟨"language", ["kt"]⟩),
   ("scala", ⟨"language", []⟩),
   ("django", ⟨"framework", ["djangoproject"]⟩),
   ("flask", ⟨"framework", ["flask-app"]⟩),
   ("fastapi", ⟨"framework", ["fast-api"]⟩),
   ("uvicorn", ⟨"framework", ["asgi"]⟩),
   ("gunicorn", ⟨"framework", ["wsgi"]⟩),
   ("tornado", ⟨"framework", []⟩),
   ("aiohttp", ⟨"framework", ["async-http"]⟩),
   ("starlette", ⟨"framework", []⟩),
   ("bottle", ⟨"framework", []⟩),
   ("pyramid", ⟨"framework", []⟩),
   ("react", ⟨"framework", ["reactjs", "react.js"]⟩),
   ("vue", ⟨"framework", ["vuejs", "vue.js"]⟩),
   ("angular", ⟨"framework", ["angularjs"]⟩),
   ("next", ⟨"framework", ["nextjs", "next.js"]⟩),
   ("nuxt", ⟨"framework", ["nuxtjs", "nuxt.js"]⟩),
   ("express", ⟨"framework", ["expressjs", "express.js"]⟩),
   ("koa", ⟨"framework", ["koajs"]⟩),
   ("nest", ⟨"framework", ["nestjs"]⟩)]

/-- Rows 31 to 60 of the collapsed `skill_mappings` dict (see
`skill_mappings_final`). -/
def final_skill_chunk_1 : List (String × SkillInfo) :=
  [("svelte", ⟨"framework", ["sveltejs"]⟩),
   ("ember", ⟨"framework", ["emberjs"]⟩),
   ("backbone", ⟨"framework", ["backbonejs"]⟩),
   ("actix-web", ⟨"framework", ["actix"]⟩),
   ("rocket", ⟨"framework", ["rocket-rs"]⟩),
   ("warp", ⟨"framework", ["warp-rs"]⟩),
   ("axum", ⟨"framework", ["axum-rs"]⟩),
   ("tonic", ⟨"framework", ["grpc-rs"]⟩),
   ("gin", ⟨"framework", ["gin-gonic"]⟩),
   ("echo", ⟨"framework", ["echo-framework"]⟩),
   ("gorilla", ⟨"framework", ["gorilla-mux"]⟩),
   ("fiber", ⟨"framework", ["fiber-go"]⟩),
   ("chi", ⟨"framework", ["chi-router"]⟩),
   ("postgresql", ⟨"database", ["postgres", "psql"]⟩),
   ("mysql", ⟨"database", ["mariadb"]⟩),
   ("sqlite", ⟨"database", ["sqlite3"]⟩),
   ("mongodb", ⟨"database", ["mongo"]⟩),
   ("redis", ⟨"database", ["redis-py"]⟩),
   ("cassandra", ⟨"database", ["cassandra-db"]⟩),
   ("elasticsearch", ⟨"database", ["elastic", "es"]⟩),
   ("influxdb", ⟨"database", ["influx"]⟩),
   ("neo4j", ⟨"database", ["neo4j-db"]⟩),
   ("dynamodb", ⟨"database", ["aws-dynamodb"]⟩),
   ("sqlalchemy", ⟨"orm", ["sql-alchemy"]⟩),
   ("alembic", ⟨"orm", ["db-migration"]⟩),
   ("prisma", ⟨"orm", ["prisma-client"]⟩),
   ("sequelize", ⟨"orm", ["sequelize-orm"]⟩),
   ("typeorm", ⟨"orm", ["type-orm"]⟩),
   ("gorm", ⟨"orm", ["gorm-go"]⟩),
   ("sqlx", ⟨"orm", ["sqlx-rs"]⟩)]

/-- Rows 61 to 90 of the collapsed `skill_mappings` dict (see
`skill_mappings_final`). -/
def final_skill_chunk_2 : List (String × SkillInfo) :=
  [("diesel", ⟨"orm", ["diesel-rs"]⟩),
   ("pytest", ⟨"testing", ["py-test"]⟩),
   ("unittest", ⟨"testing", ["python-testing"]⟩),
   ("jest", ⟨"testing", ["jest-testing"]⟩),
   ("mocha", ⟨"testing", ["mocha-testing"]⟩),
   ("cypress", ⟨"testing", ["cypress-testing"]⟩),
   ("playwright", ⟨"testing", ["playwright-testing"]⟩),
   ("selenium", ⟨"testing", ["selenium-testing"]⟩),
   ("testify", ⟨"testing", ["testify-go"]⟩),
   ("criterion", ⟨"testing", ["criterion-rs"]⟩),
   ("webpack", ⟨"build", ["webpack-bundler"]⟩),
   ("vite", ⟨"build", ["vite-bundler"]⟩),
   ("rollup", ⟨"build", ["rollup-bundler"]⟩),
   ("parcel", ⟨"build", ["parcel-bundler"]⟩),
   ("esbuild", ⟨"build", ["es-build"]⟩),
   ("babel", ⟨"build", ["babel-transpiler"]⟩),
   ("swc", ⟨"build", ["swc-compiler"]⟩),
   ("npm", ⟨"package_manager", ["node-package-manager"]⟩),
   ("yarn", ⟨"package_manager", ["yarn-pkg"]⟩),
   ("pnpm", ⟨"package_manager", ["pnpm-pkg"]⟩),
   ("pip", ⟨"package_manager", ["python-pip"]⟩),
   ("poetry", ⟨"package_manager", ["poetry-python"]⟩),
   ("cargo", ⟨"package_manager", ["rust-cargo"]⟩),
   ("aws", ⟨"cloud", ["amazon-web-services"]⟩),
   ("azure", ⟨"cloud", ["microsoft-azure"]⟩),
   ("gcp", ⟨"cloud", ["google-cloud", "google-cloud-platform"]⟩),
   ("heroku", ⟨"cloud", ["heroku-platform"]⟩),
   ("vercel", ⟨"cloud", ["vercel-platform"]⟩),
   ("netlify", ⟨"cloud", ["netlify-platform"]⟩),
   ("digitalocean", ⟨"cloud", ["do", "digital-ocean"]⟩)]

/-- Rows 91 to 117 of the collapsed `skill_mappings` dict (see
`skill_mappings_final`). -/
def final_skill_chunk_3 : List (String × SkillInfo) :=
  [("docker", ⟨"devops", ["docker-container"]⟩),
   ("kubernetes", ⟨"devops", ["k8s", "kube"]⟩),
   ("terraform", ⟨"devops", ["terraform-iac"]⟩),
   ("ansible", ⟨"devops", ["ansible-automation"]⟩),
   ("jenkins", ⟨"devops", ["jenkins-ci"]⟩),
   ("github-actions", ⟨"devops", ["github-ci"]⟩),
   ("gitlab-ci", ⟨"devops", ["gitlab-pipeline"]⟩),
   ("circleci", ⟨"devops", ["circle-ci"]⟩),
   ("travis", ⟨"devops", ["travis-ci"]⟩),
   ("prometheus", ⟨"monitoring", ["prometheus-metrics"]⟩),
   ("grafana", ⟨"monitoring", ["grafana-dashboard"]⟩),
   ("datadog", ⟨"monitoring", ["datadog-apm"]⟩),
   ("newrelic", ⟨"monitoring", ["new-relic"]⟩),
   ("sentry", ⟨"monitoring", ["sentry-error-tracking"]⟩),
   ("logstash", ⟨"monitoring", ["elastic-logstash"]⟩),
   ("fluentd", ⟨"monitoring", ["fluent-d"]⟩),
   ("requests", ⟨"utility", ["python-requests"]⟩),
   ("axios", ⟨"utility", ["axios-http"]⟩),
   ("lodash", ⟨"utility", ["lodash-js"]⟩),
   ("moment", ⟨"utility", ["moment-js"]⟩),
   ("pandas", ⟨"utility", ["pandas-data"]⟩),
   ("numpy", ⟨"utility", ["numpy-array"]⟩),
   ("matplotlib", ⟨"utility", ["matplotlib-plot"]⟩),
   ("seaborn", ⟨"utility", ["seaborn-viz"]⟩),
   ("scikit-learn", ⟨"utility", ["sklearn", "scikit"]⟩),
   ("tensorflow", ⟨"utility", ["tf", "tensor-flow"]⟩),
   ("pytorch", ⟨"utility", ["torch", "py-torch"]⟩)]

/-- The `skill_mappings` dict written out directly: the literal's 119 rows
collapse to 117 keys under Python dict semantics (`typescript` and `go`
keep their first position with their last value).  `skill_mappings_eq`
below proves this equal to `skill_mappings`; proofs and witnesses use this
spelled-out form because evaluating `pyDict` inside the kernel is slow. -/
def skill_mappings_final : List (String × SkillInfo) :=
  final_skill_chunk_0 ++ final_skill_chunk_1 ++ final_skill_chunk_2 ++ final_skill_chunk_3

/-- The alias pairs contributed by one `skill_mappings` entry: the skill
name maps to itself, then each alias maps to the skill name. -/
def aliasF (p : String × SkillInfo) : List (String × String) :=
  (p.1, p.1) :: p.2.aliases.map (fun a => (a, p.1))

/-- The assignments made by the `alias_mappings` construction loop of
`SkillMapper.__init__`, in order. -/
def alias_pairs : List (String × String) := skill_mappings.flatMap aliasF

/-- `SkillMapper.alias_mappings`: built by iterating `skill_mappings` and
assigning `alias_mappings[skill_name] = skill_name` and then
`alias_mappings[alias] = skill_name` for each alias. -/
def alias_mappings : List (String × String) := pyDict alias_pairs

/-- The characters removed by `normalize_skill_name`'s
`replace('-', '').replace('_', '').replace('.', '')`. -/
def strippedChar (c : Char) : Bool := c = '-' || c = '_' || c = '.'

/-- Lower-case and remove `-`, `_`, `.` (the first two normalization
steps). -/
def strippedLower (name : String) : String :=
  ⟨(name.data.map pyLowerChar).filter (fun c => !strippedChar c)⟩

/-- `SkillMapper.normalize_skill_name`: the `if normalized in
self.alias_mappings` membership test plus subscript is the dict lookup
with the normalized name itself as the fallback. -/
def normalize_skill_name (name : String) : String :=
  let normalized := strippedLower name
  (alias_mappings.lookup normalized).getD normalized

/-- `SkillMapper._infer_category`.  Declared `Optional[str]` in the source,
but every path returns a (non-empty) string — the final branch returns the
`'utility'` default — so the embedding returns `String`. -/
def infer_category (package_name : String) : String :=
  let nl := (pyLower package_name).data
  if ["python", "py-", "-py", "js-", "-js", "ts-", "-ts"].any
      (fun s => listContains nl s.data) then "language"
  else if ["framework", "web", "api", "server", "app"].any
      (fun s => listContains nl s.data) then "framework"
  else if ["db", "database", "sql", "nosql", "orm", "model"].any
      (fun s => listContains nl s.data) then "database"
  else if ["test", "spec", "mock", "stub", "fixture"].any
      (fun s => listContains nl s.data) then "testing"
  else if ["build", "bundle", "compile", "transpile"].any
      (fun s => listContains nl s.data) then "build"
  else if ["aws", "azure", "gcp", "cloud", "serverless"].any
      (fun s => listContains nl s.data) then "cloud"
  else if ["deploy", "ci", "cd", "pipeline", "docker", "k8s"].any
      (fun s => listContains nl s.data) then "devops"
  else if ["log", "metric", "monitor", "trace", "alert"].any
      (fun s => listContains nl s.data) then "monitoring"
  else "utility"

/-- The two return paths of `SkillMapper.map_package_to_skill`, split on
the database lookup result (split out so that proofs can case on the
lookup without forcing the embedded tables).  The source's
`if inferred_category:` is a truthiness test on the inferred string. -/
def mapLookupCases (package : Package) (normalized_name : String) :
    Option SkillInfo → Option Skill
  | some skill_info =>
    some { name := normalized_name, category := skill_info.category,
           confidence := package.confidence, source := package.source,
           aliases := skill_info.aliases }
  | none =>
    let inferred_category := infer_category package.name
    if inferred_category ≠ "" then
      some { name := normalized_name, category := inferred_category,
             confidence := package.confidence * (7/10),
             source := package.source, aliases := [] }
    else none

/-- `SkillMapper.map_package_to_skill`. -/
def map_package_to_skill (package : Package) : Option Skill :=
  let normalized_name := normalize_skill_name package.name
  mapLookupCases package normalized_name (skill_mappings.lookup normalized_name)

/-- The in-place update `deduplicate_skills` applies to the stored skill
when a later skill shares its name: confidence becomes the max, and the
later source is appended (comma-separated) unless it already occurs as a
substring of the accumulated source string (Python's `in` on `str`). -/
def mergeSkill (existing sk : Skill) : Skill :=
  { existing with
    confidence := max existing.confidence sk.confidence,
    source := if listContains existing.source.data sk.source.data
              then existing.source
              else existing.source ++ ", " ++ sk.source }

/-- One iteration of the `deduplicate_skills` loop on the `skill_map`
dict (which stores, for each name, the first skill seen with that name,
mutated in place by later duplicates). -/
def dedupInsert (m : List (String × Skill)) (sk : Skill) :
    List (String × Skill) :=
  if (m.lookup sk.name).isSome then
    m.map (fun p => if p.1 = sk.name then (p.1, mergeSkill p.2 sk) else p)
  else m ++ [(sk.name, sk)]

/-- The `skill_map` dict after the `deduplicate_skills` loop. -/
def skill_map (skills : List Skill) : List (String × Skill) :=
  skills.foldl dedupInsert []

/-- `SkillMapper.deduplicate_skills`: `list(skill_map.values())`. -/
def deduplicate_skills (skills : List Skill) : List Skill :=
  (skill_map skills).map (fun p => p.2)

/-- The value of the caller's input list after `deduplicate_skills`
returns, under Python reference semantics: the dict stores references to
the first occurrence of each name, and later duplicates mutate that stored
record in place, so a first occurrence ends up with its group's merged
value while later occurrences are untouched. -/
def dedupPostStateAux (final : List (String × Skill)) :
    List Skill → List Skill → List Skill
  | _, [] => []
  | processed, sk :: rest =>
    (if processed.any (fun s => s.name == sk.name) then sk
     else ((final.lookup sk.name).getD sk)) ::
      dedupPostStateAux final (processed ++ [sk]) rest

/-- The input list of `deduplicate_skills`, as mutated by the call. -/
def dedupPostState (skills : List Skill) : List Skill :=
  dedupPostStateAux (skill_map skills) [] skills

/-- The fold of the in-place merges over one name group: the value the
retained skill of that group ends up with. -/
def groupFold : List Skill → Option Skill
  | [] => none
  | h :: t => some (t.foldl mergeSkill h)

/-! ### Task extractor, table strategy (`task_extractor.py`)

`parse_table_tasks` feeds the output of `MarkdownIt().parse(content)` —
a flat list of markdown-it tokens — to `_extract_tasks_from_table` for each
`table_open` token.  A markdown-it token is modelled by its `type`,
`content` and `children` attributes (`children` is `None` except on
`inline` tokens). -/

/-- A markdown-it `Token` (the three attributes the source reads). -/
inductive MdToken where
  | mk : String → String → Option (List MdToken) → MdToken

/-- The `type` attribute. -/
def MdToken.type : MdToken → String
  | .mk t _ _ => t

/-- The `content` attribute. -/
def MdToken.content : MdToken → String
  | .mk _ c _ => c

/-- The `children` attribute. -/
def MdToken.children : MdToken → Option (List MdToken)
  | .mk _ _ ch => ch

/-- `TaskExtractor._map_status_text`. -/
def map_status_text (status_text : String) : String :=
  let s := pyStrip (pyLower status_text)
  match [("done", "done"), ("completed", "done"), ("finished", "done"),
         ("complete", "done"), ("todo", "todo"), ("pending", "todo"),
         ("not started", "todo"), ("doing", "doing"),
         ("in progress", "doing"), ("working", "doing"),
         ("blocked", "blocked"), ("stuck", "blocked"),
         ("waiting", "blocked")].lookup s with
  | some st => st
  | none => "todo"

/-- `TaskExtractor._find_column_index`. -/
def find_column_index (header : List String) (possible_names : List String) :
    Nat :=
  match header.findIdx? (fun col =>
    possible_names.any (fun nm =>
      listContains (pyLower col).data (pyLower nm).data)) with
  | some i => i
  | none => 0

/-- The row-collection loop of `_extract_tasks_from_table`.  Iterating the
`children` attribute of a non-`inline` token raises `TypeError` (it is
`None`), modelled by `throw`. -/
def collectRows (children : List MdToken) :
    Except PyExc (List (List String)) :=
  children.foldlM (fun rows child =>
    if child.type = "tr_open" then
      match child.children with
      | none => throw PyExc.typeError
      | some cells =>
        let row := (cells.filter (fun c => c.type == "td_open")).map
          (fun c => pyStrip c.content)
        pure (if row.isEmpty then rows else rows ++ [row])
    else pure rows) []

/-- `TaskExtractor._extract_tasks_from_table`: the whole body sits in a
`try/except Exception` that returns the empty task list on any error. -/
def extract_tasks_from_table (table_token : MdToken)
    (file_path : Option String) : List Task :=
  let body : Except PyExc (List Task) := do
    let children ← match table_token.children with
      | none => throw PyExc.typeError
      | some cs => pure cs
    let rows ← collectRows children
    if rows.length < 2 then pure []
    else
      let header := rows.headD []
      let task_col := find_column_index header ["task", "title", "description", "item"]
      let status_col := find_column_index header ["status", "state", "progress"]
      let priority_col := find_column_index header ["priority", "importance"]
      pure ((rows.drop 1).foldl (fun tasks row =>
        if row.length ≤ max task_col (max status_col priority_col) then tasks
        else
          let title := row.getD task_col ""
          let status_text := row.getD status_col ""
          let priority := row.getD priority_col ""
          if title = "" then tasks
          else tasks ++
            [{ title := pyStrip title, status := map_status_text status_text,
               file_path := file_path,
               priority := if priority = "" then none
                           else some (pyStrip priority) }]) [])
  match body with
  | .ok tasks => tasks
  | .error _ => []

/-- `TaskExtractor.parse_table_tasks`, applied to the token stream that
`MarkdownIt().parse` produced for the input content. -/
def parse_table_tasks (tokens : List MdToken) (file_path : Option String) :
    List Task :=
  tokens.foldl (fun tasks token =>
    if token.type = "table_open"
    then tasks ++ extract_tasks_from_table token file_path
    else tasks) []

/-- The token stream `MarkdownIt().parse` produces for the claim-C3 input
(a pipe table with header `Task | Status | Priority` and data row
`Deploy | In Progress | High`).  Modelled from the markdown-it-py library:
`MarkdownIt()` defaults to the `commonmark` preset, which has **no table
rule**, so the pipe table is tokenized as an ordinary paragraph —
`paragraph_open`, one `inline` token holding the raw lines, and
`paragraph_close` — and no `table_open` token exists.  (Even under a preset
with tables enabled, `Token.children` is `None` on every non-`inline`
token, so `_extract_tasks_from_table` would raise `TypeError` at
`for child in table_token.children`, which its broad `except` turns into
an empty result.) -/
def md_parse_c3_table : List MdToken :=
  [ .mk "paragraph_open" "" none,
    .mk "inline"
      "| Task | Status | Priority |\n|------|--------|----------|\n| Deploy | In Progress | High |"
      (some []),
    .mk "paragraph_close" "" none ]

/-! ## Theorems -/

/-! ### General association-list and rounding lemmas -/

theorem lookup_mem {β : Type} {l : List (String × β)} {k : String} {v : β}
    (h : l.lookup k = some v) : (k, v) ∈ l := by
  induction l with
  | nil => simp [List.lookup] at h
  | cons p t ih =>
    obtain ⟨k1, v1⟩ := p
    rw [List.lookup_cons] at h
    by_cases hk : (k == k1) = true
    · rw [hk] at h
      obtain rfl : k = k1 := eq_of_beq hk
      obtain rfl : v1 = v := by injection h
      exact List.mem_cons_self _ _
    · rw [Bool.not_eq_true] at hk
      rw [hk] at h
      exact List.mem_cons_of_mem _ (ih h)

theorem lookup_none {β : Type} {l : List (String × β)} {k : String}
    (h : l.lookup k = none) : ∀ p ∈ l, p.1 ≠ k := by
  induction l with
  | nil => simp
  | cons p t ih =>
    obtain ⟨k1, v1⟩ := p
    rw [List.lookup_cons] at h
    by_cases hk : (k == k1) = true
    · rw [hk] at h
      exact absurd h (by simp)
    · rw [Bool.not_eq_true] at hk
      rw [hk] at h
      have hne : k ≠ k1 := by simpa using hk
      intro q hq
      rcases List.mem_cons.mp hq with rfl | hq2
      · exact fun he => hne he.symm
      · exact ih h q hq2

theorem lookup_of_mem_nodup {β : Type} {l : List (String × β)} {k : String}
    {v : β} (hmem : (k, v) ∈ l) (hnd : (l.map Prod.fst).Nodup) :
    l.lookup k = some v := by
  induction l with
  | nil => cases hmem
  | cons p t ih =>
    obtain ⟨k1, v1⟩ := p
    rw [List.map_cons, List.nodup_cons] at hnd
    rcases List.mem_cons.mp hmem with heq | hmem2
    · injection heq with h1 h2
      subst h1
      subst h2
      rw [List.lookup_cons, beq_self_eq_true]
    · have hne : (k == k1) = false := by
        rw [beq_eq_false_iff_ne]
        rintro rfl
        exact hnd.1 (List.mem_map.mpr ⟨(k, v), hmem2, rfl⟩)
      rw [List.lookup_cons, hne]
      exact ih hmem2 hnd.2

theorem pyDict_go_eq {α : Type} :
    ∀ (l m : List (String × α)), ((m ++ l).map Prod.fst).Nodup →
      l.foldl (fun m p => pyDictUpdate m p.1 p.2) m = m ++ l := by
  intro l
  induction l with
  | nil => intro m _; simp
  | cons p t ih =>
    intro m h
    obtain ⟨k, v⟩ := p
    have hnd := h
    rw [List.map_append, List.nodup_append] at hnd
    have hk : m.any (fun q => q.1 == k) = false := by
      rw [List.any_eq_false]
      rintro ⟨k1, v1⟩ hq hbeq
      have hkk : (k1, v1).1 = k := eq_of_beq hbeq
      exact hnd.2.2 (List.mem_map.mpr ⟨(k1, v1), hq, hkk⟩) (by simp)
    rw [List.foldl_cons]
    have hupd : pyDictUpdate m k v = m ++ [(k, v)] := by
      rw [pyDictUpdate, if_neg (by simp [hk])]
    rw [hupd, ih (m ++ [(k, v)]) (by simpa using h)]
    simp

theorem pyDict_eq_self {α : Type} (l : List (String × α))
    (h : (l.map Prod.fst).Nodup) : pyDict l = l := by
  simpa using pyDict_go_eq l [] (by simpa using h)

theorem roundHalfEvenInt_spec (q : ℚ) :
    |q - (roundHalfEvenInt q : ℚ)| ≤ 1/2 ∧
      (|q - (roundHalfEvenInt q : ℚ)| = 1/2 → Even (roundHalfEvenInt q)) := by
  have hfl : Rat.floor q = ⌊q⌋ := (Rat.floor_def' q).trans Rat.floor_def.symm
  have h0 : (0 : ℚ) ≤ q - (⌊q⌋ : ℚ) := by
    have := Int.floor_le q; linarith
  have h1 : q - (⌊q⌋ : ℚ) < 1 := by
    have := Int.lt_floor_add_one q; linarith
  unfold roundHalfEvenInt
  rw [hfl]
  split_ifs with hlt hgt hev
  · exact ⟨by rw [abs_of_nonneg h0]; linarith,
      fun habs => absurd (by rw [abs_of_nonneg h0] at habs; linarith : (1:ℚ)/2 < 1/2)
        (lt_irrefl _)⟩
  · constructor
    · rw [abs_of_nonpos (by push_cast; linarith)]
      push_cast
      linarith
    · intro habs
      rw [abs_of_nonpos (by push_cast; linarith)] at habs
      exfalso
      push_cast at habs
      linarith
  · have heq : q - (⌊q⌋ : ℚ) = 1/2 := le_antisymm (not_lt.mp hgt) (not_lt.mp hlt)
    exact ⟨by rw [abs_of_nonneg h0]; linarith,
      fun _ => Int.even_iff.mpr hev⟩
  · have heq : q - (⌊q⌋ : ℚ) = 1/2 := le_antisymm (not_lt.mp hgt) (not_lt.mp hlt)
    constructor
    · rw [abs_of_nonpos (by push_cast; linarith)]
      push_cast
      linarith
    · intro _
      refine Int.even_add_one.mpr (fun hev2 => hev (Int.even_iff.mp hev2))

theorem calculate_progress_ne_nil (gt yt : ℚ) (tasks : List Task)
    (h : tasks ≠ []) :
    calculate_progress gt yt tasks =
      { percentage_complete := quantize2
          ((((countStatus tasks "done" + countStatus tasks "doing" : ℕ) : ℚ) /
            (tasks.length : ℚ)) * 100),
        tasks_total := tasks.length,
        tasks_done := countStatus tasks "done",
        tasks_doing := countStatus tasks "doing",
        tasks_todo := countStatus tasks "todo",
        tasks_blocked := countStatus tasks "blocked",
        project_status := determine_status gt yt
          (quantize2 ((((countStatus tasks "done" + countStatus tasks "doing" : ℕ) : ℚ) /
            (tasks.length : ℚ)) * 100))
          (countStatus tasks "blocked") } := by
  rw [calculate_progress, if_neg h]

/-! ### Claim C1 -/

/-- C1: for every non-empty task list, `calculate_progress` (at the default
thresholds 70/30) classifies `green` iff the computed completion percentage
is at least 70 and no task is blocked; otherwise `yellow` iff the
percentage is at least 30 and at most one task is blocked; otherwise
`red`. -/
theorem c1_status_classification (tasks : List Task) (h : tasks ≠ []) :
    ((calculate_progress 70 30 tasks).project_status = "green" ↔
      (70 ≤ (calculate_progress 70 30 tasks).percentage_complete ∧
        (calculate_progress 70 30 tasks).tasks_blocked = 0)) ∧
    ((calculate_progress 70 30 tasks).project_status = "yellow" ↔
      (¬(70 ≤ (calculate_progress 70 30 tasks).percentage_complete ∧
          (calculate_progress 70 30 tasks).tasks_blocked = 0) ∧
        30 ≤ (calculate_progress 70 30 tasks).percentage_complete ∧
        (calculate_progress 70 30 tasks).tasks_blocked ≤ 1)) ∧
    ((calculate_progress 70 30 tasks).project_status = "red" ↔
      (¬(70 ≤ (calculate_progress 70 30 tasks).percentage_complete ∧
          (calculate_progress 70 30 tasks).tasks_blocked = 0) ∧
        ¬(30 ≤ (calculate_progress 70 30 tasks).percentage_complete ∧
          (calculate_progress 70 30 tasks).tasks_blocked ≤ 1))) := by
  rw [calculate_progress_ne_nil _ _ _ h]
  dsimp only
  rw [determine_status]
  split_ifs with h1 h2
  · exact ⟨⟨fun _ => h1, fun _ => rfl⟩,
      ⟨fun hc => absurd hc (by decide), fun hc => absurd h1 hc.1⟩,
      ⟨fun hc => absurd hc (by decide), fun hc => absurd h1 hc.1⟩⟩
  · exact ⟨⟨fun hc => absurd hc (by decide), fun hc => absurd hc h1⟩,
      ⟨fun _ => ⟨h1, h2⟩, fun _ => rfl⟩,
      ⟨fun hc => absurd hc (by decide), fun hc => absurd h2 hc.2⟩⟩
  · exact ⟨⟨fun hc => absurd hc (by decide), fun hc => absurd hc h1⟩,
      ⟨fun hc => absurd hc (by decide), fun hc => absurd hc.2 h2⟩,
      ⟨fun _ => ⟨h1, h2⟩, fun _ => rfl⟩⟩

/-- C1 witness: the theorem applied to the singleton done-task list, whose
snapshot is 100 percent complete with no blocked task and status green. -/
theorem c1_status_classification_witness :
    ((calculate_progress 70 30 [{ title := "t", status := "done" }]).project_status = "green" ↔
      (70 ≤ (calculate_progress 70 30 [{ title := "t", status := "done" }]).percentage_complete ∧
        (calculate_progress 70 30 [{ title := "t", status := "done" }]).tasks_blocked = 0)) ∧
    ((calculate_progress 70 30 [{ title := "t", status := "done" }]).project_status = "yellow" ↔
      (¬(70 ≤ (calculate_progress 70 30 [{ title := "t", status := "done" }]).percentage_complete ∧
          (calculate_progress 70 30 [{ title := "t", status := "done" }]).tasks_blocked = 0) ∧
        30 ≤ (calculate_progress 70 30 [{ title := "t", status := "done" }]).percentage_complete ∧
        (calculate_progress 70 30 [{ title := "t", status := "done" }]).tasks_blocked ≤ 1)) ∧
    ((calculate_progress 70 30 [{ title := "t", status := "done" }]).project_status = "red" ↔
      (¬(70 ≤ (calculate_progress 70 30 [{ title := "t", status := "done" }]).percentage_complete ∧
          (calculate_progress 70 30 [{ title := "t", status := "done" }]).tasks_blocked = 0) ∧
        ¬(30 ≤ (calculate_progress 70 30 [{ title := "t", status := "done" }]).percentage_complete ∧
          (calculate_progress 70 30 [{ title := "t", status := "done" }]).tasks_blocked ≤ 1))) :=
  c1_status_classification [{ title := "t", status := "done" }] (by decide)

/-! ### Claim C2 -/

theorem count_four_statuses (tasks : List Task)
    (h : ∀ t ∈ tasks, t.status = "todo" ∨ t.status = "doing" ∨
      t.status = "done" ∨ t.status = "blocked") :
    countStatus tasks "done" + countStatus tasks "doing" +
      countStatus tasks "todo" + countStatus tasks "blocked" = tasks.length := by
  induction tasks with
  | nil => rfl
  | cons t ts ih =>
    have ht := h t (List.mem_cons_self _ _)
    have ih2 := ih (fun x hx => h x (List.mem_cons_of_mem _ hx))
    rcases ht with h1 | h1 | h1 | h1 <;>
      simp [countStatus, List.filter_cons, h1] at * <;> omega

/-- C2 (amended): the four per-status counts sum to the total for every
task list all of whose statuses lie in the four-value enum
(`calculate_progress` counts a task under no bucket when its status is
any other string, which refutes the unrestricted claim). -/
theorem c2_counts_sum (tasks : List Task)
    (h : ∀ t ∈ tasks, t.status = "todo" ∨ t.status = "doing" ∨
      t.status = "done" ∨ t.status = "blocked") :
    (calculate_progress 70 30 tasks).tasks_done +
      (calculate_progress 70 30 tasks).tasks_doing +
      (calculate_progress 70 30 tasks).tasks_todo +
      (calculate_progress 70 30 tasks).tasks_blocked =
      (calculate_progress 70 30 tasks).tasks_total := by
  rcases eq_or_ne tasks [] with rfl | hne
  · rfl
  · rw [calculate_progress_ne_nil _ _ _ hne]
    dsimp only
    have := count_four_statuses tasks h
    omega

/-- C2 counterexample: a task whose status is outside the enum (here
`"cancelled"`) is counted in no bucket, so the four counts sum to 0 while
`tasks_total` is 1 — the claim is false without the enum restriction. -/
theorem c2_counterexample :
    ¬((calculate_progress 70 30 [{ title := "t", status := "cancelled" }]).tasks_done +
      (calculate_progress 70 30 [{ title := "t", status := "cancelled" }]).tasks_doing +
      (calculate_progress 70 30 [{ title := "t", status := "cancelled" }]).tasks_todo +
      (calculate_progress 70 30 [{ title := "t", status := "cancelled" }]).tasks_blocked =
      (calculate_progress 70 30 [{ title := "t", status := "cancelled" }]).tasks_total) := by
  decide

/-- C2 witness: the amended theorem applied to a two-task list with enum
statuses. -/
theorem c2_counts_sum_witness :
    (calculate_progress 70 30 [{ title := "a", status := "done" }, { title := "b", status := "blocked" }]).tasks_done +
      (calculate_progress 70 30 [{ title := "a", status := "done" }, { title := "b", status := "blocked" }]).tasks_doing +
      (calculate_progress 70 30 [{ title := "a", status := "done" }, { title := "b", status := "blocked" }]).tasks_todo +
      (calculate_progress 70 30 [{ title := "a", status := "done" }, { title := "b", status := "blocked" }]).tasks_blocked =
      (calculate_progress 70 30 [{ title := "a", status := "done" }, { title := "b", status := "blocked" }]).tasks_total :=
  c2_counts_sum [{ title := "a", status := "done" }, { title := "b", status := "blocked" }]
    (by decide)

/-! ### Claim C5 -/

/-- C5 (amended): for every non-empty task list the snapshot's
`percentage_complete` is `(done + doing) / total * 100` rounded to two
decimal places with ties to **even** (`Decimal.quantize` under Python's
default `ROUND_HALF_EVEN` context), not half-up: it is `k/100` for an
integer `k` within half a unit of the exact scaled value, and a tie is
resolved to an even `k`. -/
theorem c5_rounding (tasks : List Task) (h : tasks ≠ []) :
    ∃ k : ℤ,
      (calculate_progress 70 30 tasks).percentage_complete = (k : ℚ) / 100 ∧
      |(((calculate_progress 70 30 tasks).tasks_done +
          (calculate_progress 70 30 tasks).tasks_doing : ℕ) : ℚ) /
          ((calculate_progress 70 30 tasks).tasks_total : ℚ) * 100 * 100 -
          (k : ℚ)| ≤ 1/2 ∧
      (|(((calculate_progress 70 30 tasks).tasks_done +
          (calculate_progress 70 30 tasks).tasks_doing : ℕ) : ℚ) /
          ((calculate_progress 70 30 tasks).tasks_total : ℚ) * 100 * 100 -
          (k : ℚ)| = 1/2 → Even k) := by
  rw [calculate_progress_ne_nil _ _ _ h]
  dsimp only
  exact ⟨roundHalfEvenInt ((((countStatus tasks "done" + countStatus tasks "doing" : ℕ) : ℚ) /
      (tasks.length : ℚ)) * 100 * 100),
    by rw [quantize2],
    (roundHalfEvenInt_spec _).1,
    (roundHalfEvenInt_spec _).2⟩

theorem roundHalfEvenInt_eq_of_floor (q : ℚ) (f : ℤ) (hf : ⌊q⌋ = f) :
    roundHalfEvenInt q =
      if q - f < 1/2 then f
      else if q - f > 1/2 then f + 1
      else if f % 2 = 0 then f else f + 1 := by
  rw [roundHalfEvenInt, (Rat.floor_def' q).trans Rat.floor_def.symm, hf]

/-- C5 counterexample: with 1 done and 31 todo tasks the exact percentage
is 3.125; the claimed half-up rule would give 3.13, but the code (banker's
rounding) yields 3.12. -/
theorem c5_counterexample :
    (calculate_progress 70 30
      ({ title := "d", status := "done" } ::
        List.replicate 31 { title := "t", status := "todo" })).percentage_complete =
      312/100 ∧
    quantize2HalfUpSpec ((1 : ℚ)/32 * 100) = 313/100 ∧
    (calculate_progress 70 30
      ({ title := "d", status := "done" } ::
        List.replicate 31 { title := "t", status := "todo" })).percentage_complete ≠
      quantize2HalfUpSpec ((1 : ℚ)/32 * 100) := by
  have hfloor : ⌊(625 : ℚ)/2⌋ = 312 := by
    rw [Int.floor_eq_iff]; norm_num
  have hround : roundHalfEvenInt ((625 : ℚ)/2) = 312 := by
    rw [roundHalfEvenInt_eq_of_floor _ 312 hfloor,
      if_neg (by norm_num), if_neg (by norm_num), if_pos (by norm_num)]
  have hcode : (calculate_progress 70 30
      ({ title := "d", status := "done" } ::
        List.replicate 31 { title := "t", status := "todo" })).percentage_complete =
      312/100 := by
    rw [calculate_progress_ne_nil _ _ _ (by decide)]
    dsimp only
    rw [show countStatus
        ({ title := "d", status := "done" } ::
          List.replicate 31 { title := "t", status := "todo" }) "done" = 1 from rfl,
      show countStatus
        ({ title := "d", status := "done" } ::
          List.replicate 31 { title := "t", status := "todo" }) "doing" = 0 from rfl,
      show ({ title := "d", status := "done" } ::
        List.replicate 31 ({ title := "t", status := "todo" } : Task)).length = 32 from rfl,
      quantize2,
      show ((((1 + 0 : ℕ) : ℚ) / ((32 : ℕ) : ℚ)) * 100) * 100 = 625/2 by norm_num,
      hround]
    norm_num
  have hspec : quantize2HalfUpSpec ((1 : ℚ)/32 * 100) = 313/100 := by
    rw [quantize2HalfUpSpec,
      show ((1 : ℚ)/32 * 100) * 100 + 1/2 = 313 by norm_num,
      show ⌊(313 : ℚ)⌋ = 313 from by rw [Int.floor_eq_iff]; norm_num]
    norm_num
  exact ⟨hcode, hspec, by rw [hcode, hspec]; norm_num⟩

/-- C5 witness: the amended theorem applied to a 16-task list with one done
task (the claim's own example: 6.25). -/
theorem c5_rounding_witness :
    ∃ k : ℤ,
      (calculate_progress 70 30
        ({ title := "d", status := "done" } ::
          List.replicate 15 { title := "t", status := "todo" })).percentage_complete = (k : ℚ) / 100 ∧
      |(((calculate_progress 70 30
        ({ title := "d", status := "done" } ::
          List.replicate 15 { title := "t", status := "todo" })).tasks_done +
          (calculate_progress 70 30
        ({ title := "d", status := "done" } ::
          List.replicate 15 { title := "t", status := "todo" })).tasks_doing : ℕ) : ℚ) /
          ((calculate_progress 70 30
        ({ title := "d", status := "done" } ::
          List.replicate 15 { title := "t", status := "todo" })).tasks_total : ℚ) * 100 * 100 -
          (k : ℚ)| ≤ 1/2 ∧
      (|(((calculate_progress 70 30
        ({ title := "d", status := "done" } ::
          List.replicate 15 { title := "t", status := "todo" })).tasks_done +
          (calculate_progress 70 30
        ({ title := "d", status := "done" } ::
          List.replicate 15 { title := "t", status := "todo" })).tasks_doing : ℕ) : ℚ) /
          ((calculate_progress 70 30
        ({ title := "d", status := "done" } ::
          List.replicate 15 { title := "t", status := "todo" })).tasks_total : ℚ) * 100 * 100 -
          (k : ℚ)| = 1/2 → Even k) :=
  c5_rounding
    ({ title := "d", status := "done" } ::
      List.replicate 15 { title := "t", status := "todo" }) (by decide)

/-! ### Claim C3 -/

/-- C3: the table-extraction strategy yields **no** tasks.  `MarkdownIt()`
defaults to the commonmark preset, whose tokenizer has no table rule, so no
`table_open` token ever appears in the parse of the claim's input and
`parse_table_tasks` returns the empty list (the claim and the repository's
own test `test_parse_table_tasks` expect the row to become a task). -/
theorem c3_table_tasks_empty (tokens : List MdToken) (fp : Option String)
    (h : ∀ t ∈ tokens, t.type ≠ "table_open") :
    parse_table_tasks tokens fp = [] := by
  suffices haux : ∀ (ts : List MdToken) (acc : List Task),
      (∀ t ∈ ts, t.type ≠ "table_open") →
      ts.foldl (fun tasks token =>
        if token.type = "table_open"
        then tasks ++ extract_tasks_from_table token fp
        else tasks) acc = acc by
    exact haux tokens [] h
  intro ts
  induction ts with
  | nil => intro acc _; rfl
  | cons t ts2 ih =>
    intro acc hh
    rw [List.foldl_cons, if_neg (hh t (List.mem_cons_self _ _))]
    exact ih acc (fun x hx => hh x (List.mem_cons_of_mem _ hx))

/-- C3 witness: the theorem applied to the token stream markdown-it
produces for the claim's concrete table input — zero tasks, where the
claim expects one `Deploy`/`doing`/`High` task. -/
theorem c3_table_tasks_empty_witness :
    parse_table_tasks md_parse_c3_table none = [] :=
  c3_table_tasks_empty md_parse_c3_table none (by decide)

/-! ### Claim C4 -/

/-- C4 (amended): a string that fails JSON decoding makes
`parse_package_json` return the empty salvage list without raising, and in
a pipeline run its sibling `requirements.txt` still contributes all its
packages.  (The unrestricted never-raises claim is refuted by
`c4_counterexample`: input `"42"` decodes fine and then raises
`TypeError`.) -/
theorem c4_decode_failure_isolation (c creq : String)
    (h : (jsonLoads c).isNone = true) :
    parse_package_json c = Except.ok [] ∧
    process_manifest_files [("requirements.txt", creq), ("package.json", c)] =
      parse_requirements_txt creq := by
  rw [Option.isNone_iff_eq_none] at h
  have h1 : parse_package_json c = Except.ok [] := by
    rw [parse_package_json, h]
  refine ⟨h1, ?_⟩
  simp [process_manifest_files, manifest_patterns, h1]

/-- C4 counterexample: `"42"` is valid JSON, so `json.loads` succeeds with
the integer 42, and `'dependencies' in data` then raises an uncaught
`TypeError` — `parse_package_json` does *not* return a package list for
every input string. -/
theorem c4_counterexample :
    parse_package_json "42" = Except.error PyExc.typeError := rfl

/-- C4 witness: the amended theorem at a malformed `package.json` content
with a sibling `requirements.txt`. -/
theorem c4_decode_failure_isolation_witness :
    parse_package_json "\x7b invalid" = Except.ok [] ∧
    process_manifest_files
      [("requirements.txt", "Django==4.2.0"), ("package.json", "\x7b invalid")] =
      parse_requirements_txt "Django==4.2.0" :=
  c4_decode_failure_isolation "\x7b invalid" "Django==4.2.0" (by decide)

/-! ### Claim C6 -/

set_option maxRecDepth 40000 in
theorem skill_mappings_eq : skill_mappings = skill_mappings_final := by decide

set_option maxRecDepth 40000 in
set_option maxHeartbeats 2000000 in
theorem alias_pairs_final_nodup :
    ((skill_mappings_final.flatMap aliasF).map Prod.fst).Nodup := by decide

theorem alias_eq : alias_mappings = skill_mappings_final.flatMap aliasF := by
  rw [alias_mappings, alias_pairs, skill_mappings_eq]
  exact pyDict_eq_self _ alias_pairs_final_nodup

theorem char_toNat_ofNat (n : Nat) (h : n < 55296) :
    (Char.ofNat n).toNat = n := by
  rw [Char.ofNat, dif_pos (Or.inl h)]
  rfl

theorem pyLowerChar_idem (c : Char) :
    pyLowerChar (pyLowerChar c) = pyLowerChar c := by
  simp only [pyLowerChar, Char.toLower]
  split_ifs with h1 h2
  · exfalso
    rw [char_toNat_ofNat _ (by omega)] at h2
    omega
  · rfl
  · rfl

theorem lower_filter_fix (l : List Char) :
    (((l.map pyLowerChar).filter (fun c => !strippedChar c)).map pyLowerChar).filter
      (fun c => !strippedChar c) =
    (l.map pyLowerChar).filter (fun c => !strippedChar c) := by
  have h1 : ((l.map pyLowerChar).filter (fun c => !strippedChar c)).map pyLowerChar =
      (l.map pyLowerChar).filter (fun c => !strippedChar c) := by
    have hfix : ∀ a ∈ (l.map pyLowerChar).filter (fun c => !strippedChar c),
        pyLowerChar a = a := by
      intro a ha
      obtain ⟨b, _, rfl⟩ := List.mem_map.mp (List.mem_of_mem_filter ha)
      exact pyLowerChar_idem b
    calc ((l.map pyLowerChar).filter (fun c => !strippedChar c)).map pyLowerChar
        = ((l.map pyLowerChar).filter (fun c => !strippedChar c)).map id :=
          List.map_congr_left hfix
      _ = (l.map pyLowerChar).filter (fun c => !strippedChar c) := List.map_id _
  rw [h1, List.filter_filter]
  congr 1
  funext a
  cases strippedChar a <;> rfl

theorem strippedLower_idem (x : String) :
    strippedLower (strippedLower x) = strippedLower x :=
  congrArg String.mk (lower_filter_fix x.data)

theorem normalize_skill_name_eq (x : String) :
    normalize_skill_name x =
      (alias_mappings.lookup (strippedLower x)).getD (strippedLower x) := rfl

set_option maxRecDepth 40000 in
set_option maxHeartbeats 2000000 in
theorem canon_check :
    (skill_mappings_final.flatMap aliasF).all
      (fun p => !(p.2.data.all (fun c => !strippedChar c)) ||
        ((skill_mappings_final.flatMap aliasF).lookup (strippedLower p.2) ==
          some p.2)) = true := by rfl

theorem canon_lookup_fixed :
    ∀ p ∈ skill_mappings_final.flatMap aliasF,
      (∀ c ∈ p.2.data, strippedChar c = false) →
      (skill_mappings_final.flatMap aliasF).lookup (strippedLower p.2) =
        some p.2 := by
  intro p hp hc
  have hall := canon_check
  rw [List.all_eq_true] at hall
  have h2 := hall p hp
  rw [Bool.or_eq_true] at h2
  rcases h2 with h2 | h2
  · exfalso
    rw [Bool.not_eq_true', List.all_eq_false] at h2
    obtain ⟨ch, hcmem, hcc⟩ := h2
    have := hc ch hcmem
    simp_all
  · exact eq_of_beq h2

/-- C6 (corrected): the concrete normalizations of the claim hold
(`normalize("React.js") = normalize("react") = "react"`), and
normalization is idempotent on every input whose normalized form contains
none of the stripped characters `-`, `_`, `.` — but not in general: an
alias can resolve to a canonical name that itself contains `-`
(see `c6_counterexample`). -/
theorem c6_normalize_idempotence :
    (normalize_skill_name "React.js" = "react" ∧
      normalize_skill_name "react" = "react") ∧
    ∀ x : String, (∀ c ∈ (normalize_skill_name x).data, strippedChar c = false) →
      normalize_skill_name (normalize_skill_name x) = normalize_skill_name x := by
  constructor
  · constructor
    · rw [normalize_skill_name_eq, alias_eq]; rfl
    · rw [normalize_skill_name_eq, alias_eq]; rfl
  · intro x hx
    cases h : alias_mappings.lookup (strippedLower x) with
    | none =>
      have hval : normalize_skill_name x = strippedLower x := by
        rw [normalize_skill_name_eq, h, Option.getD_none]
      rw [hval, normalize_skill_name_eq, strippedLower_idem, h, Option.getD_none]
    | some canon =>
      have hval : normalize_skill_name x = canon := by
        rw [normalize_skill_name_eq, h, Option.getD_some]
      rw [hval] at hx ⊢
      have hmem : (strippedLower x, canon) ∈ skill_mappings_final.flatMap aliasF := by
        rw [alias_eq] at h
        exact lookup_mem h
      have hfix := canon_lookup_fixed (strippedLower x, canon) hmem hx
      rw [normalize_skill_name_eq, alias_eq, hfix, Option.getD_some]

/-- C6 witness: idempotence at `"React.js"` (whose normalized form is
`"react"`, free of stripped characters). -/
theorem c6_normalize_idempotence_witness :
    normalize_skill_name (normalize_skill_name "React.js") =
      normalize_skill_name "React.js" := by
  have h := c6_normalize_idempotence
  exact h.2 "React.js" (by rw [h.1.1]; decide)

/-- C6 counterexample: `normalize("actix")` resolves through the alias
table to `"actix-web"`, but normalizing again strips the hyphen to
`"actixweb"`, so `normalize ∘ normalize ≠ normalize` at `"actix"`. -/
theorem c6_counterexample :
    normalize_skill_name "actix" = "actix-web" ∧
    normalize_skill_name (normalize_skill_name "actix") = "actixweb" ∧
    normalize_skill_name (normalize_skill_name "actix") ≠
      normalize_skill_name "actix" := by
  have h1 : normalize_skill_name "actix" = "actix-web" := by
    rw [normalize_skill_name_eq, alias_eq]; rfl
  have h2 : normalize_skill_name "actix-web" = "actixweb" := by
    rw [normalize_skill_name_eq, alias_eq]; rfl
  exact ⟨h1, by rw [h1, h2], by rw [h1, h2]; decide⟩

/-! ### Claim C7 -/

theorem infer_category_ne_empty (name : String) : infer_category name ≠ "" := by
  simp only [infer_category]
  split_ifs <;> decide

/-- C7: `map_package_to_skill` never returns `none`: the category
inference ends in an unconditional `'utility'` default, so the
`if inferred_category:` truthiness test always passes; and when the
normalized name is not in the skill database the returned skill carries
the inferred category and the package's confidence multiplied by the 0.7
penalty. -/
theorem c7_map_always_some (package : Package) :
    (map_package_to_skill package).isSome = true ∧
    (skill_mappings.lookup (normalize_skill_name package.name) = none →
      map_package_to_skill package =
        some { name := normalize_skill_name package.name,
               category := infer_category package.name,
               confidence := package.confidence * (7/10),
               source := package.source, aliases := [] }) := by
  have heq : map_package_to_skill package =
      mapLookupCases package (normalize_skill_name package.name)
        (skill_mappings.lookup (normalize_skill_name package.name)) := rfl
  rw [heq]
  cases hl : skill_mappings.lookup (normalize_skill_name package.name) with
  | some info =>
    exact ⟨rfl, fun hc => Option.noConfusion hc⟩
  | none =>
    refine ⟨?_, fun _ => ?_⟩ <;>
      simp [mapLookupCases, infer_category_ne_empty package.name]

/-- C7 witness: the theorem at a package absent from the skill database;
its inferred category is the `'utility'` default and its confidence is
`1 * 0.7`. -/
theorem c7_map_always_some_witness :
    (map_package_to_skill { name := "someunknownpkg", source := "x", confidence := 1 }).isSome = true ∧
    map_package_to_skill { name := "someunknownpkg", source := "x", confidence := 1 } =
      some { name := normalize_skill_name "someunknownpkg",
             category := infer_category "someunknownpkg",
             confidence := 1 * (7/10), source := "x", aliases := [] } := by
  have h := c7_map_always_some { name := "someunknownpkg", source := "x", confidence := 1 }
  refine ⟨h.1, h.2 ?_⟩
  have hnorm : normalize_skill_name "someunknownpkg" = "someunknownpkg" := by
    rw [normalize_skill_name_eq, alias_eq]; rfl
  rw [hnorm, skill_mappings_eq]
  rfl

/-! ### Claim C10 -/

theorem reqNameChar_not_ws {c : Char} (h : reqNameChar c = true) :
    c.isWhitespace = false := by
  by_contra hws
  rw [Bool.not_eq_false] at hws
  simp only [Char.isWhitespace, Bool.or_eq_true, decide_eq_true_eq] at hws
  rcases hws with ((rfl | rfl) | rfl) | rfl <;> exact absurd h (by decide)

theorem dropWhile_append_of_nil {p : Char → Bool} (xs ys : List Char)
    (h : xs.dropWhile p = []) :
    (xs ++ ys).dropWhile p = ys.dropWhile p := by
  induction xs with
  | nil => simp
  | cons x xt ih =>
    rw [List.dropWhile_cons] at h
    by_cases hx : p x = true
    · rw [List.cons_append, List.dropWhile_cons]
      rw [if_pos hx] at h ⊢
      exact ih h
    · rw [if_neg hx] at h
      cases h

theorem dropWhile_append_of_ne_nil {p : Char → Bool} (xs ys : List Char)
    (h : xs.dropWhile p ≠ []) :
    (xs ++ ys).dropWhile p = xs.dropWhile p ++ ys := by
  induction xs with
  | nil => simp at h
  | cons x xt ih =>
    by_cases hx : p x = true
    · rw [List.dropWhile_cons, if_pos hx] at h
      rw [List.cons_append, List.dropWhile_cons, if_pos hx,
        List.dropWhile_cons, if_pos hx]
      exact ih h
    · rw [List.cons_append, List.dropWhile_cons, if_neg hx,
        List.dropWhile_cons, if_neg hx]
      rfl

theorem takeWhile_append_run {p : Char → Bool} (a : List Char) (c0 : Char)
    (b : List Char) (ha : ∀ c ∈ a, p c = true) (hc : p c0 = false) :
    (a ++ c0 :: b).takeWhile p = a := by
  induction a with
  | nil => simp [List.takeWhile_cons, hc]
  | cons x xt ih =>
    have hx := ha x (List.mem_cons_self _ _)
    rw [List.cons_append, List.takeWhile_cons, if_pos hx,
      ih (fun c hcm => ha c (List.mem_cons_of_mem _ hcm))]

theorem rstripList_cons_of_not_ws (c0 : Char) (r : List Char)
    (h : c0.isWhitespace = false) :
    rstripList (c0 :: r) = c0 :: rstripList r := by
  rw [rstripList, rstripList,
    show (c0 :: r).reverse = r.reverse ++ [c0] from by simp]
  by_cases hr : r.reverse.dropWhile Char.isWhitespace = []
  · rw [dropWhile_append_of_nil _ _ hr, hr]
    simp [List.dropWhile_cons, h]
  · rw [dropWhile_append_of_ne_nil _ _ hr]
    simp

theorem rstripList_append_of_ne_nil (a b : List Char)
    (h : rstripList b ≠ []) :
    rstripList (a ++ b) = a ++ rstripList b := by
  have h2 : b.reverse.dropWhile Char.isWhitespace ≠ [] := by
    intro hnil
    exact h (by rw [rstripList, hnil, List.reverse_nil])
  rw [rstripList, List.reverse_append,
    dropWhile_append_of_ne_nil _ _ h2, List.reverse_append,
    List.reverse_reverse]
  rfl

theorem rstripList_idem (l : List Char) :
    rstripList (rstripList l) = rstripList l := by
  have he : ∀ m : List Char, rstripList m = m.rdropWhile Char.isWhitespace :=
    fun m => rfl
  rw [he, he, List.rdropWhile_idempotent]

theorem splitOnChar_eq_single (sep : Char) (l : List Char) (h : sep ∉ l) :
    splitOnChar sep l = [l] := by
  induction l with
  | nil => rfl
  | cons c cs ih =>
    simp only [splitOnChar,
      ih (fun hm => h (List.mem_cons_of_mem _ hm)),
      if_neg (show ¬(c = sep) from fun hc => h (hc ▸ List.mem_cons_self _ _))]

/-- C10: a requirements line whose leading `[a-zA-Z0-9_-]` run is followed
by a character that is outside the name class, outside the `[=<>~!]`
version-specifier class and not whitespace (for example the `.` of
`zope.interface==5.0.0`) yields exactly one package whose name is the
lower-cased leading run and whose version is `None`. -/
theorem c10_requirements_name_truncation (a b : List Char) (c0 : Char)
    (ha : a ≠ []) (ha2 : ∀ c ∈ a, reqNameChar c = true)
    (hb : b.head? = some c0)
    (hc1 : reqNameChar c0 = false) (hc2 : verSpecChar c0 = false)
    (hc3 : c0.isWhitespace = false)
    (hnl : '\n' ∉ b) :
    parse_requirements_txt ⟨a ++ b⟩ =
      [{ name := ⟨a.map pyLowerChar⟩, version := none,
         source := "requirements.txt",
         confidence := calculate_confidence ⟨a.map pyLowerChar⟩
           "requirements.txt" }] := by
  obtain ⟨bt, rfl⟩ : ∃ bt, b = c0 :: bt := by
    cases b with
    | nil => cases hb
    | cons x xt =>
      injection hb with h1
      exact ⟨xt, by rw [h1]⟩
  obtain ⟨a0, at2, rfl⟩ : ∃ a0 at2, a = a0 :: at2 := by
    cases a with
    | nil => exact absurd rfl ha
    | cons a0 at2 => exact ⟨a0, at2, rfl⟩
  have hnotin : '\n' ∉ (a0 :: at2) ++ c0 :: bt := by
    intro hm
    rcases List.mem_append.mp hm with hm | hm
    · exact absurd (ha2 _ hm) (by decide)
    · exact hnl hm
  set rb := rstripList bt with hrbdef
  have hrb : rstripList (c0 :: bt) = c0 :: rb := rstripList_cons_of_not_ws c0 bt hc3
  have hne : rstripList (c0 :: bt) ≠ [] := by rw [hrb]; exact List.cons_ne_nil _ _
  have ha0ws : a0.isWhitespace = false :=
    reqNameChar_not_ws (ha2 a0 (List.mem_cons_self _ _))
  have hline : trimList ((a0 :: at2) ++ c0 :: bt) = (a0 :: at2) ++ c0 :: rb := by
    rw [trimList, rstripList_append_of_ne_nil _ _ hne, hrb, lstripList,
      List.cons_append, List.dropWhile_cons, if_neg (by rw [ha0ws]; exact Bool.false_ne_true)]
  have hname : ((a0 :: at2) ++ c0 :: rb).takeWhile reqNameChar = a0 :: at2 :=
    takeWhile_append_run _ _ _ ha2 hc1
  have hvs : trimList (c0 :: rb) = c0 :: rb := by
    rw [trimList, hrbdef, rstripList_cons_of_not_ws c0 _ hc3, rstripList_idem,
      lstripList, List.dropWhile_cons, if_neg (by rw [hc3]; exact Bool.false_ne_true)]
  have hpkg : parseReqLine ((a0 :: at2) ++ c0 :: bt) =
      some { name := ⟨(a0 :: at2).map pyLowerChar⟩, version := none,
             source := "requirements.txt",
             confidence := calculate_confidence ⟨(a0 :: at2).map pyLowerChar⟩
               "requirements.txt" } := by
    simp only [parseReqLine, hline]
    rw [if_neg (show ¬(((a0 :: at2) ++ c0 :: rb).isEmpty = true) from by
      rw [List.cons_append]; exact fun hh => by cases hh)]
    rw [if_neg (show ¬(((a0 :: at2) ++ c0 :: rb).head? = some '#') from by
      rw [List.cons_append, List.head?_cons]
      intro hh
      injection hh with hh2
      exact absurd (ha2 a0 (List.mem_cons_self _ _)) (by rw [hh2]; decide))]
    rw [hname]
    rw [if_neg (show ¬((a0 :: at2).isEmpty = true) from fun hh => by cases hh)]
    rw [show ((a0 :: at2) ++ c0 :: rb).drop (a0 :: at2).length = c0 :: rb from
      List.drop_left _ _]
    rw [hvs]
    rw [if_neg (show ¬((c0 :: rb).isEmpty = true) from fun hh => by cases hh)]
    rw [show matchVersionTail (c0 :: rb) = none from by
      simp [matchVersionTail, List.takeWhile_cons, hc2]]
    rfl
  rw [parse_requirements_txt,
    show (⟨(a0 :: at2) ++ c0 :: bt⟩ : String).data = (a0 :: at2) ++ c0 :: bt from rfl,
    splitOnChar_eq_single _ _ hnotin,
    List.filterMap_cons, hpkg, List.filterMap_nil]

/-- C10 witness: the theorem at the claim's example line
`zope.interface==5.0.0` — the package name is `"zope"` and the version is
`None`. -/
theorem c10_requirements_name_truncation_witness :
    parse_requirements_txt ⟨"zope".data ++ ".interface==5.0.0".data⟩ =
      [{ name := ⟨"zope".data.map pyLowerChar⟩, version := none,
         source := "requirements.txt",
         confidence := calculate_confidence ⟨"zope".data.map pyLowerChar⟩
           "requirements.txt" }] :=
  c10_requirements_name_truncation "zope".data ".interface==5.0.0".data '.'
    (by decide) (by decide) (by decide) (by decide) (by decide) (by decide)
    (by decide)

/-! ### Claims C8 and C9

The `skill_map` dict of `deduplicate_skills` stores, for each name, the
first skill seen with that name, and later duplicates mutate that stored
record.  The central invariant: looking up `n` in the dict built from the
processed prefix gives exactly the fold of `mergeSkill` over the
name-`n` group of that prefix. -/

theorem lookup_append {β : Type} (m l2 : List (String × β)) (n : String) :
    (m ++ l2).lookup n =
      match m.lookup n with
      | some v => some v
      | none => l2.lookup n := by
  induction m with
  | nil => simp
  | cons p t ih =>
    obtain ⟨k1, v1⟩ := p
    rw [List.cons_append, List.lookup_cons, List.lookup_cons]
    by_cases hk : (n == k1) = true
    · rw [hk]
    · rw [Bool.not_eq_true] at hk
      rw [hk]
      exact ih

theorem lookup_update (m : List (String × Skill)) (k : String) (sk : Skill)
    (n : String) :
    (m.map (fun p => if p.1 = k then (p.1, mergeSkill p.2 sk) else p)).lookup n =
      if n = k then (m.lookup n).map (fun v => mergeSkill v sk)
      else m.lookup n := by
  induction m with
  | nil => cases hn : decide (n = k) <;> simp
  | cons p t ih =>
    obtain ⟨k1, v1⟩ := p
    rw [List.map_cons]
    by_cases h1 : k1 = k
    · subst h1
      rw [show (if (k1, v1).1 = k1 then ((k1, v1).1, mergeSkill (k1, v1).2 sk)
          else (k1, v1)) = (k1, mergeSkill v1 sk) from if_pos rfl]
      rw [List.lookup_cons, List.lookup_cons]
      by_cases hn : (n == k1) = true
      · have : n = k1 := eq_of_beq hn
        rw [hn, if_pos this]
        rfl
      · rw [Bool.not_eq_true] at hn
        rw [hn, ih, if_neg]
        intro he
        subst he
        exact absurd (beq_self_eq_true n) (by rw [hn]; exact Bool.false_ne_true)
    · rw [show (if (k1, v1).1 = k then ((k1, v1).1, mergeSkill (k1, v1).2 sk)
          else (k1, v1)) = (k1, v1) from if_neg h1]
      rw [List.lookup_cons, List.lookup_cons]
      by_cases hn : (n == k1) = true
      · have heq : n = k1 := eq_of_beq hn
        rw [hn, if_neg (heq ▸ h1)]
      · rw [Bool.not_eq_true] at hn
        rw [hn, ih]

theorem dedupInsert_lookup (m : List (String × Skill)) (sk : Skill)
    (g : String → List Skill) (hg : ∀ n, m.lookup n = groupFold (g n)) :
    ∀ n, (dedupInsert m sk).lookup n =
      groupFold (g n ++ if sk.name == n then [sk] else []) := by
  intro n
  rw [dedupInsert]
  by_cases hl : (m.lookup sk.name).isSome
  · rw [if_pos hl, lookup_update]
    by_cases hn : n = sk.name
    · rw [hn, if_pos rfl, beq_self_eq_true, if_pos rfl]
      obtain ⟨x, hx⟩ := Option.isSome_iff_exists.mp hl
      have hgx : groupFold (g sk.name) = some x := (hg sk.name).symm.trans hx
      cases hgn : g sk.name with
      | nil => rw [hgn] at hgx; cases hgx
      | cons gh gt =>
        rw [hgn] at hgx
        rw [groupFold] at hgx
        injection hgx with hx2
        rw [hx, List.cons_append, groupFold, List.foldl_append, hx2]
        rfl
    · rw [if_neg hn,
        show (sk.name == n) = false from
          beq_eq_false_iff_ne.mpr (fun he => hn he.symm)]
      rw [if_neg (by exact Bool.false_ne_true), List.append_nil]
      exact hg n
  · rw [if_neg hl, lookup_append]
    have hnone : m.lookup sk.name = none := Option.not_isSome_iff_eq_none.mp hl
    by_cases hn : n = sk.name
    · rw [hn, hnone, beq_self_eq_true, if_pos rfl]
      have hgnil : groupFold (g sk.name) = none := (hg sk.name).symm.trans hnone
      have hgempty : g sk.name = [] := by
        cases hgn : g sk.name with
        | nil => rfl
        | cons gh gt => rw [hgn, groupFold] at hgnil; cases hgnil
      rw [hgempty, List.nil_append, List.lookup_cons, beq_self_eq_true]
      rfl
    · rw [hg n,
        show (sk.name == n) = false from
          beq_eq_false_iff_ne.mpr (fun he => hn he.symm)]
      rw [if_neg (by exact Bool.false_ne_true), List.append_nil]
      cases hgn : groupFold (g n) with
      | some v => rfl
      | none =>
        rw [List.lookup_cons,
          show (n == sk.name) = false from beq_eq_false_iff_ne.mpr hn]
        rfl

theorem skill_map_go (l : List Skill) :
    ∀ (m : List (String × Skill)) (g : String → List Skill),
      (∀ n, m.lookup n = groupFold (g n)) →
      ∀ n, (l.foldl dedupInsert m).lookup n =
        groupFold (g n ++ l.filter (fun s => s.name == n)) := by
  induction l with
  | nil =>
    intro m g hg n
    rw [List.foldl_nil, List.filter_nil, List.append_nil]
    exact hg n
  | cons sk rest ih =>
    intro m g hg n
    rw [List.foldl_cons]
    have hstep := dedupInsert_lookup m sk g hg
    have := ih (dedupInsert m sk)
      (fun n2 => g n2 ++ if sk.name == n2 then [sk] else []) hstep n
    rw [this, List.filter_cons]
    congr 1
    by_cases hc : (sk.name == n) = true
    · simp [hc, List.append_assoc]
    · rw [Bool.not_eq_true] at hc
      simp [hc]

theorem skill_map_lookup (skills : List Skill) (n : String) :
    (skill_map skills).lookup n =
      groupFold (skills.filter (fun s => s.name == n)) := by
  have := skill_map_go skills [] (fun _ => []) (fun _ => rfl) n
  rw [skill_map]
  simpa using this

theorem skill_map_wf (skills : List Skill) :
    ((skill_map skills).map Prod.fst).Nodup ∧
    ∀ p ∈ skill_map skills, p.2.name = p.1 := by
  suffices haux : ∀ (l : List Skill) (m : List (String × Skill)),
      (m.map Prod.fst).Nodup → (∀ p ∈ m, p.2.name = p.1) →
      ((l.foldl dedupInsert m).map Prod.fst).Nodup ∧
      ∀ p ∈ l.foldl dedupInsert m, p.2.name = p.1 by
    exact haux skills [] (by simp) (by simp)
  intro l
  induction l with
  | nil => intro m h1 h2; exact ⟨h1, h2⟩
  | cons sk rest ih =>
    intro m h1 h2
    rw [List.foldl_cons]
    apply ih
    · rw [dedupInsert]
      by_cases hl : (m.lookup sk.name).isSome
      · rw [if_pos hl]
        have hkeys : (m.map (fun p =>
            if p.1 = sk.name then (p.1, mergeSkill p.2 sk) else p)).map Prod.fst =
            m.map Prod.fst := by
          rw [List.map_map]
          apply List.map_congr_left
          intro p _
          by_cases hpk : p.1 = sk.name
          · simp [hpk]
          · simp [hpk]
        rw [hkeys]
        exact h1
      · rw [if_neg hl]
        have hnone : m.lookup sk.name = none := Option.not_isSome_iff_eq_none.mp hl
        rw [List.map_append, List.nodup_append]
        refine ⟨h1, by simp, ?_⟩
        intro a ha hb
        simp only [List.map_cons, List.map_nil, List.mem_singleton] at hb
        subst hb
        obtain ⟨p, hp, hpeq⟩ := List.mem_map.mp ha
        exact lookup_none hnone p hp hpeq
    · rw [dedupInsert]
      by_cases hl : (m.lookup sk.name).isSome
      · rw [if_pos hl]
        intro p hp
        obtain ⟨q, hq, rfl⟩ := List.mem_map.mp hp
        by_cases hqk : q.1 = sk.name
        · rw [if_pos hqk]
          exact h2 q hq
        · rw [if_neg hqk]
          exact h2 q hq
      · rw [if_neg hl]
        intro p hp
        rcases List.mem_append.mp hp with hp2 | hp2
        · exact h2 p hp2
        · simp only [List.mem_singleton] at hp2
          subst hp2
          rfl

theorem foldl_merge_confidence (t : List Skill) (h : Skill) :
    (t.foldl mergeSkill h).confidence =
      t.foldl (fun c s => max c s.confidence) h.confidence := by
  induction t generalizing h with
  | nil => rfl
  | cons s ts ih =>
    rw [List.foldl_cons, List.foldl_cons, ih]
    rfl

theorem foldl_merge_source (t : List Skill) (h : Skill) :
    (t.foldl mergeSkill h).source =
      t.foldl (fun acc s =>
        if listContains acc.data s.source.data then acc
        else acc ++ ", " ++ s.source) h.source := by
  induction t generalizing h with
  | nil => rfl
  | cons s ts ih =>
    rw [List.foldl_cons, List.foldl_cons, ih]
    rfl

theorem foldl_max_le_init (t : List Skill) (c : ℚ) :
    c ≤ t.foldl (fun c s => max c s.confidence) c := by
  induction t generalizing c with
  | nil => exact le_refl c
  | cons s ts ih =>
    exact le_trans (le_max_left _ _) (ih _)

theorem foldl_max_mem_le (t : List Skill) (c : ℚ) :
    ∀ s ∈ t, s.confidence ≤ t.foldl (fun c s => max c s.confidence) c := by
  induction t generalizing c with
  | nil => intro s hs; cases hs
  | cons x ts ih =>
    intro s hs
    rcases List.mem_cons.mp hs with rfl | hs2
    · exact le_trans (le_max_right _ _) (foldl_max_le_init ts _)
    · exact ih _ s hs2

theorem foldl_max_attained (t : List Skill) (c : ℚ) :
    t.foldl (fun c s => max c s.confidence) c = c ∨
    ∃ s ∈ t, t.foldl (fun c s => max c s.confidence) c = s.confidence := by
  induction t generalizing c with
  | nil => exact Or.inl rfl
  | cons x ts ih =>
    rcases ih (max c x.confidence) with h | ⟨s, hs, hval⟩
    · by_cases hm : c ≤ x.confidence
      · exact Or.inr ⟨x, List.mem_cons_self _ _,
          by rw [List.foldl_cons, h, max_eq_right hm]⟩
      · exact Or.inl (by rw [List.foldl_cons, h, max_eq_left (le_of_not_le hm)])
    · exact Or.inr ⟨s, List.mem_cons_of_mem _ hs,
        by rw [List.foldl_cons]; exact hval⟩

/-- C8 (amended): `deduplicate_skills` keeps exactly one skill per name and
its confidence is the maximum over the name group; its `source`, however,
is built by appending each later contributing source **only when it does
not already occur as a substring** of the accumulated source string
(Python's `in` on `str`), not by joining the distinct filenames — see
`c8_counterexample`. -/
theorem c8_deduplicate (skills : List Skill) :
    ((deduplicate_skills skills).map (fun s => s.name)).Nodup ∧
    (∀ s ∈ skills, ∃ r ∈ deduplicate_skills skills, r.name = s.name) ∧
    ∀ r ∈ deduplicate_skills skills,
      (∀ s ∈ skills, s.name = r.name → s.confidence ≤ r.confidence) ∧
      (∃ s ∈ skills, s.name = r.name ∧ r.confidence = s.confidence) ∧
      ∃ gh gt, skills.filter (fun s => s.name == r.name) = gh :: gt ∧
        r.source = gt.foldl (fun acc s =>
          if listContains acc.data s.source.data then acc
          else acc ++ ", " ++ s.source) gh.source := by
  obtain ⟨hnd, hname⟩ := skill_map_wf skills
  have hkeys : (deduplicate_skills skills).map (fun s => s.name) =
      (skill_map skills).map Prod.fst := by
    rw [deduplicate_skills, List.map_map]
    exact List.map_congr_left (fun p hp => hname p hp)
  refine ⟨hkeys ▸ hnd, ?_, ?_⟩
  · intro s hs
    have hmem : s ∈ skills.filter (fun x => x.name == s.name) :=
      List.mem_filter.mpr ⟨hs, beq_self_eq_true _⟩
    obtain ⟨gh, gt, hf⟩ : ∃ gh gt,
        skills.filter (fun x => x.name == s.name) = gh :: gt := by
      cases hf : skills.filter (fun x => x.name == s.name) with
      | nil => rw [hf] at hmem; cases hmem
      | cons gh gt => exact ⟨gh, gt, rfl⟩
    have hlk : (skill_map skills).lookup s.name =
        some (gt.foldl mergeSkill gh) := by
      rw [skill_map_lookup, hf, groupFold]
    refine ⟨gt.foldl mergeSkill gh, ?_, ?_⟩
    · rw [deduplicate_skills]
      exact List.mem_map.mpr ⟨(s.name, gt.foldl mergeSkill gh), lookup_mem hlk, rfl⟩
    · exact hname (s.name, gt.foldl mergeSkill gh) (lookup_mem hlk)
  · intro r hr
    rw [deduplicate_skills] at hr
    obtain ⟨p, hp, rfl⟩ := List.mem_map.mp hr
    have hpname : p.2.name = p.1 := hname p hp
    have hlk : (skill_map skills).lookup p.1 = some p.2 := by
      refine lookup_of_mem_nodup ?_ hnd
      cases p
      exact hp
    rw [skill_map_lookup] at hlk
    rw [hpname]
    obtain ⟨gh, gt, hf⟩ : ∃ gh gt,
        skills.filter (fun s => s.name == p.1) = gh :: gt := by
      cases hf : skills.filter (fun s => s.name == p.1) with
      | nil => rw [hf, groupFold] at hlk; cases hlk
      | cons gh gt => exact ⟨gh, gt, rfl⟩
    rw [hf, groupFold] at hlk
    injection hlk with hval
    have hval2 : p.2 = gt.foldl mergeSkill gh := hval.symm
    have hmemfil : ∀ s ∈ skills, s.name = p.1 → s ∈ gh :: gt := by
      intro s hs hn
      rw [← hf]
      exact List.mem_filter.mpr ⟨hs, by rw [hn]; exact beq_self_eq_true _⟩
    have hfilmem : ∀ s ∈ gh :: gt, s ∈ skills ∧ s.name = p.1 := by
      intro s hs
      rw [← hf] at hs
      obtain ⟨hs1, hs2⟩ := List.mem_filter.mp hs
      exact ⟨hs1, eq_of_beq hs2⟩
    refine ⟨?_, ?_, gh, gt, hf, ?_⟩
    · intro s hs hn
      rw [hval2, foldl_merge_confidence]
      rcases List.mem_cons.mp (hmemfil s hs hn) with rfl | hs2
      · exact foldl_max_le_init gt _
      · exact foldl_max_mem_le gt _ s hs2
    · rcases foldl_max_attained gt gh.confidence with hc | ⟨s, hs, hc⟩
      · refine ⟨gh, (hfilmem gh (List.mem_cons_self _ _)).1,
          (hfilmem gh (List.mem_cons_self _ _)).2, ?_⟩
        rw [hval2, foldl_merge_confidence, hc]
      · refine ⟨s, (hfilmem s (List.mem_cons_of_mem _ hs)).1,
          (hfilmem s (List.mem_cons_of_mem _ hs)).2, ?_⟩
        rw [hval2, foldl_merge_confidence, hc]
    · rw [hval2, foldl_merge_source]

/-- C8 counterexample: two skills named `x` with sources `package.json`
and then `json`.  The filenames are distinct, so the claim demands the
merged source `"package.json, json"`; but `"json" in "package.json"` is a
substring hit, so the code keeps just `"package.json"`. -/
theorem c8_counterexample :
    (deduplicate_skills
      [{ name := "x", category := "c", confidence := 0, source := "package.json" },
       { name := "x", category := "c", confidence := 0, source := "json" }]).map
        (fun s => s.source) = ["package.json"] ∧
    ("json" : String) ≠ "package.json" ∧
    (["package.json"] : List String) ≠ ["package.json, json"] := by
  refine ⟨by decide, by decide, by decide⟩

/-- C8 witness: the amended theorem at a concrete two-skill list. -/
theorem c8_deduplicate_witness :
    ((deduplicate_skills
        [{ name := "x", category := "c", confidence := 0, source := "a" },
         { name := "x", category := "c", confidence := 1, source := "b" }]).map
          (fun s => s.name)).Nodup ∧
    (∀ s ∈ [({ name := "x", category := "c", confidence := 0, source := "a" } : Skill),
            { name := "x", category := "c", confidence := 1, source := "b" }],
      ∃ r ∈ deduplicate_skills
        [{ name := "x", category := "c", confidence := 0, source := "a" },
         { name := "x", category := "c", confidence := 1, source := "b" }],
        r.name = s.name) ∧
    ∀ r ∈ deduplicate_skills
        [{ name := "x", category := "c", confidence := 0, source := "a" },
         { name := "x", category := "c", confidence := 1, source := "b" }],
      (∀ s ∈ [({ name := "x", category := "c", confidence := 0, source := "a" } : Skill),
              { name := "x", category := "c", confidence := 1, source := "b" }],
        s.name = r.name → s.confidence ≤ r.confidence) ∧
      (∃ s ∈ [({ name := "x", category := "c", confidence := 0, source := "a" } : Skill),
              { name := "x", category := "c", confidence := 1, source := "b" }],
        s.name = r.name ∧ r.confidence = s.confidence) ∧
      ∃ gh gt, ([({ name := "x", category := "c", confidence := 0, source := "a" } : Skill),
          { name := "x", category := "c", confidence := 1, source := "b" }]).filter
            (fun s => s.name == r.name) = gh :: gt ∧
        r.source = gt.foldl (fun acc s =>
          if listContains acc.data s.source.data then acc
          else acc ++ ", " ++ s.source) gh.source :=
  c8_deduplicate
    [{ name := "x", category := "c", confidence := 0, source := "a" },
     { name := "x", category := "c", confidence := 1, source := "b" }]

theorem filter_name_eq_singleton (skills : List Skill)
    (h : (skills.map (fun s => s.name)).Nodup) :
    ∀ s ∈ skills, skills.filter (fun x => x.name == s.name) = [s] := by
  induction skills with
  | nil => intro s hs; cases hs
  | cons t ts ih =>
    rw [List.map_cons, List.nodup_cons] at h
    intro s hs
    rcases List.mem_cons.mp hs with rfl | hs2
    · rw [List.filter_cons, if_pos (beq_self_eq_true _)]
      rw [List.filter_eq_nil_iff.mpr ?_]
      · intro x hx hbeq
        exact h.1 (eq_of_beq hbeq ▸ List.mem_map.mpr ⟨x, hx, rfl⟩)
    · have htname : (t.name == s.name) = false := by
        rw [beq_eq_false_iff_ne]
        intro he
        exact h.1 (he ▸ List.mem_map.mpr ⟨s, hs2, rfl⟩)
      rw [List.filter_cons, if_neg (by rw [htname]; exact Bool.false_ne_true),
        ih h.2 s hs2]

theorem postStateAux_id (final : List (String × Skill)) :
    ∀ (rest processed : List Skill),
      ((processed ++ rest).map (fun s => s.name)).Nodup →
      (∀ s ∈ rest, final.lookup s.name = some s) →
      dedupPostStateAux final processed rest = rest := by
  intro rest
  induction rest with
  | nil => intro processed _ _; rfl
  | cons sk r2 ih =>
    intro processed hnd hlk
    rw [dedupPostStateAux]
    have hany : processed.any (fun s => s.name == sk.name) = false := by
      rw [List.any_eq_false]
      intro x hx hbeq
      rw [List.map_append, List.nodup_append] at hnd
      exact hnd.2.2 (List.mem_map.mpr ⟨x, hx, rfl⟩)
        (by rw [List.map_cons]
            exact eq_of_beq hbeq ▸ List.mem_cons_self _ _)
    rw [hany, if_neg Bool.false_ne_true,
      hlk sk (List.mem_cons_self _ _), Option.getD_some,
      ih (processed ++ [sk]) (by simpa using hnd)
        (fun s hs => hlk s (List.mem_cons_of_mem _ hs))]

/-- C9 (corrected): `map_package_to_skill` and `normalize_skill_name` are
pure functions, and `deduplicate_skills` leaves its input records
unchanged whenever all input names are distinct; but with duplicate names
it mutates the stored first-occurrence record in place (Python reference
semantics) — see `c9_counterexample`. -/
theorem c9_poststate_unchanged (skills : List Skill)
    (h : (skills.map (fun s => s.name)).Nodup) :
    dedupPostState skills = skills := by
  rw [dedupPostState]
  refine postStateAux_id _ skills [] (by simpa using h) ?_
  intro s hs
  rw [skill_map_lookup, filter_name_eq_singleton skills h s hs]
  rfl

/-- C9 counterexample: two skills named `x` with sources `a` then `b`.
The call rewrites the first input record's `source` to `"a, b"` in place,
so the input list is not left unchanged. -/
theorem c9_counterexample :
    dedupPostState
      [{ name := "x", category := "c", confidence := 0, source := "a" },
       { name := "x", category := "c", confidence := 0, source := "b" }] ≠
    [{ name := "x", category := "c", confidence := 0, source := "a" },
     { name := "x", category := "c", confidence := 0, source := "b" }] := by
  intro heq
  have hmap := congrArg (List.map (fun s => s.source)) heq
  revert hmap
  decide

/-- C9 witness: the amended theorem at a two-skill list with distinct
names. -/
theorem c9_poststate_unchanged_witness :
    dedupPostState
      [{ name := "x", category := "c", confidence := 0, source := "a" },
       { name := "y", category := "c", confidence := 0, source := "b" }] =
    [{ name := "x", category := "c", confidence := 0, source := "a" },
     { name := "y", category := "c", confidence := 0, source := "b" }] :=
  c9_poststate_unchanged
    [{ name := "x", category := "c", confidence := 0, source := "a" },
     { name := "y", category := "c", confidence := 0, source := "b" }]
    (by decide)

end Repotrackr
